import Mathlib

/-!
Verification of the objc-js native bridge (shallow embedding).

This file embeds the value-marshalling, struct-encoding parsing and
callback-dispatch logic of the bridge's native layer
(`src/native/type-conversion.h`, `src/native/struct-utils.h`,
`src/native/ObjcObject.h`, `src/native/nobjc_block.h`,
`src/native/ffi-utils.h`, `src/native/forwarding-common.h`) into Lean and
proves the specified properties about it.

Modelling conventions:
* JavaScript numbers are IEEE-754 doubles, i.e. dyadic rationals; they are
  modelled exactly by `Dyadic` (`m * 2 ^ e` with unbounded mantissa and
  exponent).  Operations that round to a given precision are modelled by
  `fpRound`.  NaN and the infinities do not arise in any claim and are not
  modelled.
* Raw `uint8_t` buffers are modelled byte-granularly by `ByteMem`: each
  write of a machine value of size `s` at offset `o` marks bytes
  `o, …, o+s-1` as holding that value; a read at the same offset and size
  recovers it, a read of clobbered or unwritten bytes fails.  This captures
  `memcpy`-based writes and reads at matching type and offset, including
  aliasing, without modelling IEEE bit patterns.
* C++ functions that would throw a JS exception or exhibit undefined
  behaviour on ill-typed input are modelled with `Option`, `none` standing
  for the failure.
-/

-- MARK: Dyadic numbers (exact model of IEEE-754 doubles)
/-- A dyadic rational `m * 2 ^ e`.  This is the exact carrier of all finite
IEEE-754 values, used to model JavaScript numbers and C `float`/`double`
values.  The representation is not normalised; definitions below always
produce a canonical representative for the values they construct. -/
structure Dyadic where
  m : Int
  e : Int
  deriving DecidableEq, Repr

/-- The dyadic representing an integer. -/
def Dyadic.ofInt (n : Int) : Dyadic := ⟨n, 0⟩

/-- Fueled floor-log2 (`natLog2Aux fuel n` is `⌊log₂ n⌋` whenever
`n ≤ fuel`); written with explicit fuel so that the kernel can evaluate
it. -/
def natLog2Aux : Nat → Nat → Nat
  | 0, _ => 0
  | fuel + 1, n => if n ≤ 1 then 0 else 1 + natLog2Aux fuel (n / 2)

/-- Floor of the base-2 logarithm of a natural number (0 for 0 and 1). -/
def natLog2 (n : Nat) : Nat := natLog2Aux n n

/-- Truncation of a dyadic toward zero, modelling the C/JS conversion of a
double to a 64-bit integer value (`Napi::Number::Int64Value`) before any
width cast. -/
def Dyadic.truncToInt (d : Dyadic) : Int :=
  if 0 ≤ d.e then d.m * 2 ^ d.e.toNat
  else Int.tdiv d.m (2 ^ (-d.e).toNat)

/-- Round a dyadic to `prec` significant binary digits (round half away
from zero toward +∞), the value-level effect of storing into an IEEE
float with a `prec`-bit significand.  Exponent overflow and subnormal
underflow do not arise in any claim and are not modelled.  A value that
already fits in `prec` bits is returned unchanged. -/
def fpRound (prec : Nat) (d : Dyadic) : Dyadic :=
  if d.m = 0 then d
  else
    let bits := natLog2 d.m.natAbs + 1
    if bits ≤ prec then d
    else
      let k := bits - prec
      ⟨Int.ediv (d.m + 2 ^ (k - 1)) (2 ^ k), d.e + k⟩

/-- Conversion of a 64-bit integer to a JS number (IEEE double), as done by
`Napi::Number::New(env, int64_t)` and `static_cast<double>`: exact for
magnitudes up to `2 ^ 53`, rounded to 53 significant bits beyond. -/
def doubleOfInt (v : Int) : Dyadic :=
  if -(2 ^ 53) ≤ v ∧ v ≤ 2 ^ 53 then ⟨v, 0⟩ else fpRound 53 ⟨v, 0⟩

/-- Wrap an integer to a `w`-byte two's-complement signed value: the effect
of `static_cast` to a signed integer of `w` bytes. -/
def wrapSigned (w : Nat) (v : Int) : Int :=
  (v + 2 ^ (8 * w - 1)) % 2 ^ (8 * w) - 2 ^ (8 * w - 1)

/-- Wrap an integer to a `w`-byte unsigned value: the effect of
`static_cast` to an unsigned integer of `w` bytes. -/
def wrapUnsigned (w : Nat) (v : Int) : Int :=
  v % 2 ^ (8 * w)

-- MARK: JavaScript values
/-- Model of the JS values that cross the bridge: numbers (dyadics, see
above), booleans, strings, `null`, `undefined`, plain objects (ordered
property lists), arrays, `ObjcObject` wrapper instances (holding the
wrapped `id`, which is nil after finalization), and binary buffers
(identified by an abstract data-pointer id).  Property keys and strings
are `List Char`. -/
inductive JSValue where
  | num (v : Dyadic)
  | jsBool (b : Bool)
  | str (s : List Char)
  | null
  | undefined
  | obj (props : List (List Char × JSValue))
  | arr (elems : List JSValue)
  | wrapped (objcObject : Option Nat)
  | buffer (bid : Nat)

/-- Property lookup on a JS object (`Napi::Object::Get`): first binding of
the key, `none` when absent or when the value is not an object. -/
def JSValue.getProp (js : JSValue) (k : List Char) : Option JSValue :=
  match js with
  | .obj props => (props.find? fun p => p.1 = k).map (·.2)
  | _ => none

/-- Property-presence test (`Napi::Object::Has`). -/
def JSValue.hasProp (js : JSValue) (k : List Char) : Bool :=
  (js.getProp k).isSome

/-- Own enumerable property names in insertion order
(`Napi::Object::GetPropertyNames`); empty for non-plain objects. -/
def JSValue.propNames (js : JSValue) : List (List Char) :=
  match js with
  | .obj props => props.map (·.1)
  | _ => []

/-- Whether `Napi::Value::IsObject` holds (objects, arrays, wrappers and
buffers are all objects in JS). -/
def JSValue.isObjectJS (js : JSValue) : Bool :=
  match js with
  | .obj _ => true
  | .arr _ => true
  | .wrapped _ => true
  | .buffer _ => true
  | _ => false

/-- Whether `Napi::Value::IsArray` holds. -/
def JSValue.isArrayJS (js : JSValue) : Bool :=
  match js with
  | .arr _ => true
  | _ => false

/-- JS truthiness (`Napi::Value::ToBoolean`). -/
def jsToBoolean (js : JSValue) : Bool :=
  match js with
  | .num d => d.m ≠ 0
  | .jsBool b => b
  | .str s => s ≠ []
  | .null => false
  | .undefined => false
  | .obj _ => true
  | .arr _ => true
  | .wrapped _ => true
  | .buffer _ => true

/-- The double value of a JS number (`Napi::Number::DoubleValue`); `none`
models the failure on a non-number. -/
def jsDouble (js : JSValue) : Option Dyadic :=
  match js with
  | .num d => some d
  | _ => none

/-- `Napi::Number::Int64Value`: truncate toward zero and take the low 64
bits. -/
def jsInt64 (js : JSValue) : Option Int :=
  (jsDouble js).map fun d => wrapSigned 8 d.truncToInt

/-- `Napi::Number::Int32Value` (ECMA `ToInt32`): truncate toward zero and
wrap to 32-bit signed. -/
def jsInt32 (js : JSValue) : Option Int :=
  (jsDouble js).map fun d => wrapSigned 4 d.truncToInt

/-- `Napi::Number::Uint32Value` (ECMA `ToUint32`). -/
def jsUint32 (js : JSValue) : Option Int :=
  (jsDouble js).map fun d => wrapUnsigned 4 d.truncToInt

-- MARK: Machine values and byte buffers
/-- Pointer-sized values that the marshaller stores into buffers: the null
pointer, an ObjC object (`id`/`Class`), a registered selector, the
character data of a C string, or the data pointer of a JS buffer. -/
inductive PtrVal where
  | null
  | objPtr (o : Nat)
  | selPtr (name : List Char)
  | strData (s : List Char)
  | bufData (b : Nat)
  deriving DecidableEq, Repr

/-- A machine-level value as written by one `memcpy` in the marshaller: an
integer of a given byte width (already wrapped to that width), a
float/double of a given byte width (its exact dyadic value), or a
pointer. -/
inductive MachineVal where
  | intVal (width : Nat) (v : Int)
  | floatVal (width : Nat) (v : Dyadic)
  | ptrVal (p : PtrVal)
  deriving DecidableEq, Repr

/-- Size in bytes of a machine value (pointers are 8 bytes on LP64). -/
def MachineVal.size : MachineVal → Nat
  | .intVal w _ => w
  | .floatVal w _ => w
  | .ptrVal _ => 8

/-- A raw byte buffer: each byte offset optionally holds the machine value
whose `memcpy` covered it together with the byte's index within that
value. -/
def ByteMem := Nat → Option (MachineVal × Nat)

/-- A fresh zero-initialized buffer. -/
def emptyMem : ByteMem := fun _ => none

/-- Write a machine value at a byte offset (`memcpy(dest + off, &v, size)`),
clobbering the bytes it covers. -/
def writeMem (m : ByteMem) (off : Nat) (v : MachineVal) : ByteMem :=
  fun a => if off ≤ a ∧ a < off + v.size then some (v, a - off) else m a

/-- Read a machine value of size `sz` at a byte offset: succeeds exactly
when all `sz` bytes belong to one value of that size written at that
offset. -/
def readMem (m : ByteMem) (off sz : Nat) : Option MachineVal :=
  match m off with
  | some (v, 0) =>
    if v.size = sz ∧ ((List.range sz).all fun k => decide (m (off + k) = some (v, k))) then
      some v
    else none
  | _ => none

-- MARK: Type-encoding simplification (type-conversion.h)
/-- The ObjC type-encoding qualifier prefixes stripped by the bridge
(`r n N o O R V`, see `SimplifyTypeEncoding`). -/
def typeQualifiers : List Char := ['r', 'n', 'N', 'o', 'O', 'R', 'V']

/-- `SimplifyTypeEncoding`: drop leading qualifier characters. -/
def SimplifyTypeEncoding (enc : List Char) : List Char :=
  enc.dropWhile (· ∈ typeQualifiers)

/-- First character of an encoding, `'\0'` for the empty C string (which
every dispatch treats as the unknown/void fallback). -/
def headCharD (l : List Char) : Char := l.headD (Char.ofNat 0)

/-- Byte width of a leaf type code (`GetTypeSize` /
`GetSizeForTypeEncoding`, LP64). -/
def widthOfTypeCode (c : Char) : Nat :=
  match c with
  | 'c' => 1 | 'i' => 4 | 's' => 2 | 'l' => 8 | 'q' => 8
  | 'C' => 1 | 'I' => 4 | 'S' => 2 | 'L' => 8 | 'Q' => 8
  | 'f' => 4 | 'd' => 8 | 'B' => 1
  | '*' => 8 | '@' => 8 | '#' => 8 | ':' => 8 | '^' => 8
  | 'v' => 0
  | _ => 0

-- MARK: JS → buffer leaf writes (struct-utils.h, WriteLeafToBufferVisitor)
/-- The machine value written by `WriteLeafToBufferVisitor` for one leaf
type code (dispatched by `DispatchByTypeCode`): signed/unsigned integers
go through `Int64Value` and a width cast, `f`/`d` through `DoubleValue`,
`B` through `ToBoolean` as one byte, `@` extracts the wrapped `id` (nil
for anything else), `#` always writes nil, `:` registers the selector
named by a JS string, `*` always writes a null pointer (the visitor
refuses to keep a C-string alive), `^` stores a JS buffer's data
pointer.  `none` models the void/unknown error case (nothing written)
and the JS type errors on the numeric paths. -/
def writeLeafMachineVal (js : JSValue) (code : Char) : Option MachineVal :=
  match code with
  | 'c' => (jsInt64 js).map fun v => .intVal 1 (wrapSigned 1 v)
  | 'i' => (jsInt64 js).map fun v => .intVal 4 (wrapSigned 4 v)
  | 's' => (jsInt64 js).map fun v => .intVal 2 (wrapSigned 2 v)
  | 'l' => (jsInt64 js).map fun v => .intVal 8 (wrapSigned 8 v)
  | 'q' => (jsInt64 js).map fun v => .intVal 8 (wrapSigned 8 v)
  | 'C' => (jsInt64 js).map fun v => .intVal 1 (wrapUnsigned 1 v)
  | 'I' => (jsInt64 js).map fun v => .intVal 4 (wrapUnsigned 4 v)
  | 'S' => (jsInt64 js).map fun v => .intVal 2 (wrapUnsigned 2 v)
  | 'L' => (jsInt64 js).map fun v => .intVal 8 (wrapUnsigned 8 v)
  | 'Q' => (jsInt64 js).map fun v => .intVal 8 (wrapUnsigned 8 v)
  | 'f' => (jsDouble js).map fun d => .floatVal 4 (fpRound 24 d)
  | 'd' => (jsDouble js).map fun d => .floatVal 8 d
  | 'B' => some (.intVal 1 (if jsToBoolean js then 1 else 0))
  | '@' =>
    some (.ptrVal (match js with
      | .wrapped (some o) => .objPtr o
      | _ => .null))
  | '#' => some (.ptrVal .null)
  | ':' =>
    some (.ptrVal (match js with
      | .str s => .selPtr s
      | _ => .null))
  | '*' => some (.ptrVal .null)
  | '^' =>
    some (.ptrVal (match js with
      | .buffer b => .bufData b
      | _ => .null))
  | _ => none

/-- `WriteLeafValueToBuffer`: simplify the encoding, then write the leaf
value at the given offset. -/
def WriteLeafValueToBuffer (js : JSValue) (typeEncoding : List Char)
    (buffer : ByteMem) (offset : Nat) : Option ByteMem :=
  let simplified := SimplifyTypeEncoding typeEncoding
  (writeLeafMachineVal js (headCharD simplified)).map (writeMem buffer offset)

-- MARK: Buffer → JS leaf reads (type-conversion.h, ObjCToJS)
/-- `ObjCToJS`: convert one machine value read from a buffer to a JS value
according to the type code.  Integer reads reinterpret the stored bytes
at the read signedness and convert to a JS number (a double, hence
`doubleOfInt`); `B` tests the byte for nonzero; `*`/`@`/`#`/`:` follow
the source's null checks; `v` and unknown codes give `undefined`.
`none` models reads that reinterpret bytes across int/float/pointer
kinds, which no bridge path performs. -/
def ObjCToJS (mv : MachineVal) (code : Char) : Option JSValue :=
  match code with
  | 'c' => match mv with
    | .intVal 1 v => some (.num (doubleOfInt (wrapSigned 1 v)))
    | _ => none
  | 'i' => match mv with
    | .intVal 4 v => some (.num (doubleOfInt (wrapSigned 4 v)))
    | _ => none
  | 's' => match mv with
    | .intVal 2 v => some (.num (doubleOfInt (wrapSigned 2 v)))
    | _ => none
  | 'l' => match mv with
    | .intVal 8 v => some (.num (doubleOfInt (wrapSigned 8 v)))
    | _ => none
  | 'q' => match mv with
    | .intVal 8 v => some (.num (doubleOfInt (wrapSigned 8 v)))
    | _ => none
  | 'C' => match mv with
    | .intVal 1 v => some (.num (doubleOfInt (wrapUnsigned 1 v)))
    | _ => none
  | 'I' => match mv with
    | .intVal 4 v => some (.num (doubleOfInt (wrapUnsigned 4 v)))
    | _ => none
  | 'S' => match mv with
    | .intVal 2 v => some (.num (doubleOfInt (wrapUnsigned 2 v)))
    | _ => none
  | 'L' => match mv with
    | .intVal 8 v => some (.num (doubleOfInt (wrapUnsigned 8 v)))
    | _ => none
  | 'Q' => match mv with
    | .intVal 8 v => some (.num (doubleOfInt (wrapUnsigned 8 v)))
    | _ => none
  | 'f' => match mv with
    | .floatVal 4 d => some (.num d)
    | _ => none
  | 'd' => match mv with
    | .floatVal 8 d => some (.num d)
    | _ => none
  | 'B' => match mv with
    | .intVal 1 v => some (.jsBool (decide (v ≠ 0)))
    | _ => none
  | '*' => match mv with
    | .ptrVal .null => some .null
    | .ptrVal (.strData s) => some (.str s)
    | _ => none
  | '@' => match mv with
    | .ptrVal .null => some .null
    | .ptrVal (.objPtr o) => some (.wrapped (some o))
    | _ => none
  | '#' => match mv with
    | .ptrVal .null => some .null
    | .ptrVal (.objPtr o) => some (.wrapped (some o))
    | _ => none
  | ':' => match mv with
    | .ptrVal .null => some .null
    | .ptrVal (.selPtr s) => some (.str s)
    | _ => none
  | 'v' => some .undefined
  | _ => some .undefined

/-- `ReadLeafValueFromBuffer`: simplify the encoding, read the leaf's bytes
at the given offset and convert with `ObjCToJS`. -/
def ReadLeafValueFromBuffer (typeEncoding : List Char) (buffer : ByteMem)
    (offset : Nat) : Option JSValue :=
  let code := headCharD (SimplifyTypeEncoding typeEncoding)
  (readMem buffer offset (widthOfTypeCode code)).bind fun mv => ObjCToJS mv code

-- MARK: Claim C2 — primitive marshalling round-trip
/-- The supported primitive type codes of the round-trip claim. -/
def primCodes : List Char := ['c', 'i', 's', 'l', 'q', 'C', 'I', 'S', 'L', 'Q', 'f', 'd', 'B']

/-- The JS values representable without loss at a primitive type code:
integers within the code's width (limited to the double-exact range
`±2 ^ 53` for the 8-byte codes, the documented truncation domain),
floats fixed by rounding to 24 bits, any double for `d`, booleans for
`B`. -/
def leafInRange (code : Char) (js : JSValue) : Prop :=
  match code with
  | 'c' => ∃ n : Int, js = .num ⟨n, 0⟩ ∧ -128 ≤ n ∧ n ≤ 127
  | 'i' => ∃ n : Int, js = .num ⟨n, 0⟩ ∧ -(2 ^ 31) ≤ n ∧ n ≤ 2 ^ 31 - 1
  | 's' => ∃ n : Int, js = .num ⟨n, 0⟩ ∧ -(2 ^ 15) ≤ n ∧ n ≤ 2 ^ 15 - 1
  | 'l' => ∃ n : Int, js = .num ⟨n, 0⟩ ∧ -(2 ^ 53) ≤ n ∧ n ≤ 2 ^ 53
  | 'q' => ∃ n : Int, js = .num ⟨n, 0⟩ ∧ -(2 ^ 53) ≤ n ∧ n ≤ 2 ^ 53
  | 'C' => ∃ n : Int, js = .num ⟨n, 0⟩ ∧ 0 ≤ n ∧ n ≤ 255
  | 'I' => ∃ n : Int, js = .num ⟨n, 0⟩ ∧ 0 ≤ n ∧ n ≤ 2 ^ 32 - 1
  | 'S' => ∃ n : Int, js = .num ⟨n, 0⟩ ∧ 0 ≤ n ∧ n ≤ 2 ^ 16 - 1
  | 'L' => ∃ n : Int, js = .num ⟨n, 0⟩ ∧ 0 ≤ n ∧ n ≤ 2 ^ 53
  | 'Q' => ∃ n : Int, js = .num ⟨n, 0⟩ ∧ 0 ≤ n ∧ n ≤ 2 ^ 53
  | 'f' => ∃ d : Dyadic, js = .num d ∧ fpRound 24 d = d
  | 'd' => ∃ d : Dyadic, js = .num d
  | 'B' => ∃ b : Bool, js = .jsBool b
  | _ => False

/-- One write-then-read round through a buffer at a single leaf code. -/
def leafRoundTrip (js : JSValue) (code : Char) (m : ByteMem) (off : Nat) :
    Option JSValue :=
  (WriteLeafValueToBuffer js [code] m off).bind
    fun m2 => ReadLeafValueFromBuffer [code] m2 off

-- MARK: Claim C1 — ObjectHandle retain parity (ObjcObject.h)
/-- A reference-count event issued by the handle on the wrapped object. -/
inductive RCEvent where
  | retain (o : Nat)
  | release (o : Nat)
  deriving DecidableEq, Repr

/-- The constructor argument of `ObjcObject`: either a `Napi::External`
carrying an `id` (which may be nil), or anything else (a direct
`new ObjcObject()` from JS, which throws a `TypeError`). -/
inductive ObjcObjectCtorArg where
  | external (objcId : Option Nat)
  | invalidArgs
  deriving DecidableEq, Repr

/-- The state of an `ObjcObject` JS wrapper: the wrapped `id`, nil when
constructed invalidly or already finalized. -/
structure ObjcObjectHandle where
  objcObject : Option Nat
  deriving DecidableEq, Repr

/-- The `ObjcObject` constructor: store the external `id` and issue exactly
one `objc_retain` when it is non-nil; on invalid arguments throw and
leave the member nil (no retain). -/
def ObjcObjectConstruct (arg : ObjcObjectCtorArg) :
    ObjcObjectHandle × List RCEvent :=
  match arg with
  | .external obj =>
    (⟨obj⟩, match obj with
      | some o => [.retain o]
      | none => [])
  | .invalidArgs => (⟨none⟩, [])

/-- The `ObjcObject` destructor (run when the JS wrapper is finalized):
issue one `objc_release` when the member is non-nil, and nil it out. -/
def ObjcObjectDestruct (h : ObjcObjectHandle) :
    ObjcObjectHandle × List RCEvent :=
  match h.objcObject with
  | some o => (⟨none⟩, [.release o])
  | none => (h, [])

-- MARK: Encoding characters
/-- The double-quote character delimiting field names in encodings. -/
def dquoteChar : Char := Char.ofNat 34

/-- The opening brace of a struct encoding. -/
def braceOpen : Char := Char.ofNat 123

/-- The closing brace of a struct encoding. -/
def braceClose : Char := Char.ofNat 125

-- MARK: Token skipping (spec §4.1; helper not present under src/)
/-- Consume characters up to and including the closer matching an
already-consumed opener, tracking nesting depth; returns the consumed
characters and the rest.  Fueled for kernel evaluation. -/
def skipBalancedAux (openC closeC : Char) : Nat → Nat → List Char → List Char × List Char
  | 0, _, l => ([], l)
  | fuel + 1, depth, l =>
    match l with
    | [] => ([], [])
    | c :: rest =>
      let depth2 := if c = openC then depth + 1 else if c = closeC then depth - 1 else depth
      if depth2 = 0 then ([c], rest)
      else
        let pr := skipBalancedAux openC closeC fuel depth2 rest
        (c :: pr.1, pr.2)

/-- Modelled from the spec: `SkipOneTypeEncoding` (declared in the sources
but implemented outside src/) advances past exactly one balanced
encoding token, including qualifier prefixes, nested `{…}`, `(…)`,
`[…]`, `^T`, and the block forms `@?` and `@?<…>`; returns the token
and the rest. -/
def skipOneTypeEncodingAux : Nat → List Char → List Char × List Char
  | 0, l => ([], l)
  | fuel + 1, l =>
    match l with
    | [] => ([], [])
    | c :: rest =>
      if c ∈ typeQualifiers then
        let pr := skipOneTypeEncodingAux fuel rest
        (c :: pr.1, pr.2)
      else if c = '^' then
        let pr := skipOneTypeEncodingAux fuel rest
        (c :: pr.1, pr.2)
      else if c = braceOpen then
        let pr := skipBalancedAux braceOpen braceClose fuel 1 rest
        (c :: pr.1, pr.2)
      else if c = '(' then
        let pr := skipBalancedAux '(' ')' fuel 1 rest
        (c :: pr.1, pr.2)
      else if c = '[' then
        let pr := skipBalancedAux '[' ']' fuel 1 rest
        (c :: pr.1, pr.2)
      else if c = '@' then
        match rest with
        | q :: rest2 =>
          if q = '?' then
            match rest2 with
            | lt :: rest3 =>
              if lt = '<' then
                let pr := skipBalancedAux '<' '>' fuel 1 rest3
                (c :: q :: lt :: pr.1, pr.2)
              else (['@', '?'], rest2)
            | [] => (['@', '?'], [])
          else (['@'], rest)
        | [] => (['@'], [])
      else ([c], rest)

/-- Skip one type-encoding token (fuel derived from the input length). -/
def SkipOneTypeEncoding (l : List Char) : List Char × List Char :=
  skipOneTypeEncodingAux (l.length + 1) l

-- MARK: Struct-encoding header (helper not present under src/)
/-- The header view of a struct encoding `{Name=fields}`. -/
structure StructEncodingHeader where
  name : List Char
  fieldsStart : Option (List Char)
  empty : Bool

/-- Modelled from the spec: `ParseStructEncodingHeader` (declared in the
sources but implemented outside src/) splits `{Name=fields}` into the
struct name and the character sequence following `=`; an opaque
`{Name}` has no fields (`empty`); anything not starting with `{` or
truncated before `}` is invalid (no `fieldsStart`, not `empty`). -/
def ParseStructEncodingHeader (enc : List Char) : StructEncodingHeader :=
  match enc with
  | c :: rest =>
    if c = braceOpen then
      let nameChars := rest.takeWhile fun ch => ch ≠ '=' ∧ ch ≠ braceClose
      let after := rest.drop nameChars.length
      match after with
      | a :: fs =>
        if a = '=' then { name := nameChars, fieldsStart := some fs, empty := false }
        else { name := nameChars, fieldsStart := none, empty := true }
      | [] => { name := nameChars, fieldsStart := none, empty := false }
    else { name := [], fieldsStart := none, empty := false }
  | [] => { name := [], fieldsStart := none, empty := false }

/-- `ExtractStructName`: the characters between `{` and the first `=` or
`}` of a struct encoding (also used to recover the name of a nested
struct from its field encoding). -/
def ExtractStructName (enc : List Char) : List Char :=
  match enc with
  | c :: rest =>
    if c = braceOpen then rest.takeWhile fun ch => ch ≠ '=' ∧ ch ≠ braceClose
    else []
  | [] => []

-- MARK: Well-known struct field names (struct-utils.h)
/-- `KNOWN_STRUCT_FIELDS`: canonical field names of well-known Apple
structs, applied when an encoding carries no field names. -/
def KNOWN_STRUCT_FIELDS : List (List Char × List (List Char)) :=
  [("CGPoint".toList, ["x".toList, "y".toList]),
   ("NSPoint".toList, ["x".toList, "y".toList]),
   ("CGSize".toList, ["width".toList, "height".toList]),
   ("NSSize".toList, ["width".toList, "height".toList]),
   ("CGRect".toList, ["origin".toList, "size".toList]),
   ("NSRect".toList, ["origin".toList, "size".toList]),
   ("CGVector".toList, ["dx".toList, "dy".toList]),
   ("_NSRange".toList, ["location".toList, "length".toList]),
   ("NSRange".toList, ["location".toList, "length".toList]),
   ("NSEdgeInsets".toList, ["top".toList, "left".toList, "bottom".toList, "right".toList]),
   ("NSDirectionalEdgeInsets".toList,
     ["top".toList, "leading".toList, "bottom".toList, "trailing".toList]),
   ("CGAffineTransform".toList,
     ["a".toList, "b".toList, "c".toList, "d".toList, "tx".toList, "ty".toList])]

/-- `LookupKnownFieldNames`: table lookup by struct name. -/
def LookupKnownFieldNames (structName : List Char) : Option (List (List Char)) :=
  (KNOWN_STRUCT_FIELDS.find? fun p => p.1 = structName).map (·.2)

-- MARK: Parsed struct data structures (struct-utils.h)
/-- `StructFieldInfo`: one parsed struct field — name, its own type
encoding, byte offset within the parent, size, alignment, whether it is
a nested struct, and its subfields when so. -/
inductive StructFieldInfo where
  | mk (name : List Char) (typeEncoding : List Char) (offset size alignment : Nat)
      (isStruct : Bool) (subfields : List StructFieldInfo)

/-- Field name accessor. -/
def StructFieldInfo.name : StructFieldInfo → List Char
  | .mk n _ _ _ _ _ _ => n

/-- Field type-encoding accessor. -/
def StructFieldInfo.typeEncoding : StructFieldInfo → List Char
  | .mk _ t _ _ _ _ _ => t

/-- Field offset accessor. -/
def StructFieldInfo.offset : StructFieldInfo → Nat
  | .mk _ _ o _ _ _ _ => o

/-- Field size accessor. -/
def StructFieldInfo.size : StructFieldInfo → Nat
  | .mk _ _ _ s _ _ _ => s

/-- Field alignment accessor. -/
def StructFieldInfo.alignment : StructFieldInfo → Nat
  | .mk _ _ _ _ a _ _ => a

/-- Nested-struct flag accessor. -/
def StructFieldInfo.isStruct : StructFieldInfo → Bool
  | .mk _ _ _ _ _ b _ => b

/-- Subfields accessor. -/
def StructFieldInfo.subfields : StructFieldInfo → List StructFieldInfo
  | .mk _ _ _ _ _ _ sub => sub

/-- `ParsedStructType`: name, top-level fields, total size and alignment. -/
structure ParsedStructType where
  name : List Char
  fields : List StructFieldInfo
  totalSize : Nat
  alignment : Nat

-- MARK: Platform layout (model of NSGetSizeAndAlignment)
/-- Size and alignment of a primitive type code on macOS LP64 (alignment
equals size; zero-size codes have alignment 1). -/
def primSizeAlign (c : Char) : Nat × Nat :=
  (widthOfTypeCode c, max (widthOfTypeCode c) 1)

/-- Round `off` up to a multiple of `a` (no-op for `a = 0`): the
`(off + a - 1) & ~(a - 1)` computation of `ComputeFieldOffsets` for the
power-of-two alignments the runtime reports. -/
def alignUp (off a : Nat) : Nat :=
  if a = 0 then off else (off + a - 1) - (off + a - 1) % a

/-- Standard C struct layout over a field list: fold the aligned running
offset, take the maximal field alignment, and round the end up to it.
Returns (total size, alignment).  This is the layout
`NSGetSizeAndAlignment` reports for a struct encoding. -/
def sizeAlignOfFields (fields : List StructFieldInfo) : Nat × Nat :=
  let final := fields.foldl
    (fun acc f => (alignUp acc.1 f.alignment + f.size, max acc.2 (max f.alignment 1))) (0, 1)
  (alignUp final.1 final.2, final.2)

-- MARK: Struct field parsing (struct-utils.h, ParseStructFields)
/-- The field-name choice of `ParseStructFields`: a quoted `"name"` is
consumed and used; otherwise the positional name `field<i>` is
generated (and nothing is consumed).  Returns the name and the rest of
the input. -/
def parseFieldName (fieldIndex : Nat) (l : List Char) : List Char × List Char :=
  match l with
  | c :: rest =>
    if c = dquoteChar then
      let nameChars := rest.takeWhile (· ≠ dquoteChar)
      (nameChars, rest.drop (nameChars.length + 1))
    else ("field".toList ++ (Nat.repr fieldIndex).toList, c :: rest)
  | [] => ("field".toList ++ (Nat.repr fieldIndex).toList, [])

/-- `ParseStructFields`: loop over the field region of a struct encoding
(stopping at `}` or the end), per field: simplify qualifiers, take the
quoted or positional name, take one type token, recursively parse
nested struct subfields, and record the platform size and alignment of
the field's encoding (computed structurally, as `NSGetSizeAndAlignment`
reports it).  Offsets are 0 at this stage.  Fueled for kernel
evaluation; the wrappers pass fuel exceeding the input length. -/
def parseStructFieldsAux : Nat → Nat → List Char → List StructFieldInfo
  | 0, _, _ => []
  | fuel + 1, fieldIndex, l =>
    let l2 := SimplifyTypeEncoding l
    match l2 with
    | [] => []
    | c :: rest =>
      if c = braceClose then []
      else
        let pr := parseFieldName fieldIndex (c :: rest)
        let tk := skipOneTypeEncodingAux (pr.2.length + 1) pr.2
        let isStruct := headCharD tk.1 = braceOpen
        let subfields :=
          if isStruct then
            match (ParseStructEncodingHeader tk.1).fieldsStart with
            | some subPtr => parseStructFieldsAux fuel 0 subPtr
            | none => []
          else []
        let sa :=
          if isStruct then sizeAlignOfFields subfields
          else primSizeAlign (headCharD (SimplifyTypeEncoding tk.1))
        ⟨pr.1, tk.1, 0, sa.1, sa.2, isStruct, subfields⟩ ::
          parseStructFieldsAux fuel (fieldIndex + 1) tk.2

/-- Model of the platform's `NSGetSizeAndAlignment` on one encoding:
primitive codes have their fixed LP64 size/alignment; a struct encoding
gets the standard C layout of its parsed fields. -/
def modelNSGetSizeAndAlignment (enc : List Char) : Nat × Nat :=
  let enc2 := SimplifyTypeEncoding enc
  if headCharD enc2 = braceOpen then
    match (ParseStructEncodingHeader enc2).fieldsStart with
    | none => (0, 1)
    | some fs => sizeAlignOfFields (parseStructFieldsAux (fs.length + 1) 0 fs)
  else primSizeAlign (headCharD enc2)

-- MARK: Known-name application (struct-utils.h, ParseStructEncodingWithNames)
/-- Rename fields positionally from a list of names (the in-place loop of
the known-name application; extra fields keep their names). -/
def renameFields : List StructFieldInfo → List (List Char) → List StructFieldInfo
  | fields, [] => fields
  | [], _ => []
  | f :: fs, n :: ns =>
    ⟨n, f.typeEncoding, f.offset, f.size, f.alignment, f.isStruct, f.subfields⟩ ::
      renameFields fs ns

/-- The top-level known-name application: when the first field's name
starts with `field` and the struct name has a table entry with exactly
as many names as there are fields, replace every field name by the
table entry. -/
def applyKnownNamesTop (structName : List Char) (fields : List StructFieldInfo) :
    List StructFieldInfo :=
  match fields with
  | [] => []
  | f :: _ =>
    if f.name.take 5 = "field".toList then
      match LookupKnownFieldNames structName with
      | some known => if known.length = fields.length then renameFields fields known else fields
      | none => fields
    else fields

/-- The nested known-name application for one field: when the field is a
nested struct whose first subfield name is nonempty and starts with
`field`, extract the nested struct's name from the field's type
encoding and replace the subfield names when the table entry arity
matches. -/
def applyNestedKnownNamesOne (f : StructFieldInfo) : StructFieldInfo :=
  match f.subfields with
  | [] => f
  | sf :: _ =>
    if f.isStruct ∧ sf.name ≠ [] ∧ sf.name.take 5 = "field".toList then
      let nestedName := ExtractStructName f.typeEncoding
      if nestedName ≠ [] then
        match LookupKnownFieldNames nestedName with
        | some known =>
          if known.length = f.subfields.length then
            ⟨f.name, f.typeEncoding, f.offset, f.size, f.alignment, f.isStruct,
              renameFields f.subfields known⟩
          else f
        | none => f
      else f
    else f

/-- The nested known-name application, one level deep over all fields. -/
def applyNestedKnownNames (fields : List StructFieldInfo) : List StructFieldInfo :=
  fields.map applyNestedKnownNamesOne

-- MARK: Offset computation (struct-utils.h, ComputeFieldOffsets)
/-- One level of `ComputeFieldOffsets`: the forward pass rounding the
running offset up to each field's alignment before assigning it, with
the given procedure applied to nested subfields. -/
def computeOffsetsLevel (subCompute : List StructFieldInfo → List StructFieldInfo) :
    Nat → List StructFieldInfo → List StructFieldInfo
  | _, [] => []
  | current, f :: rest =>
    let newOff := alignUp current f.alignment
    let sub := if f.isStruct && !f.subfields.isEmpty then subCompute f.subfields else f.subfields
    ⟨f.name, f.typeEncoding, newOff, f.size, f.alignment, f.isStruct, sub⟩ ::
      computeOffsetsLevel subCompute (newOff + f.size) rest

/-- `ComputeFieldOffsets` to a given nesting depth (the wrappers pass a
depth exceeding any actual nesting): each level is the forward pass,
recursing into nested struct subfields from a fresh offset 0. -/
def ComputeFieldOffsets : Nat → List StructFieldInfo → List StructFieldInfo
  | 0, fields => fields
  | depth + 1, fields => computeOffsetsLevel (ComputeFieldOffsets depth) 0 fields

-- MARK: Whole-struct parsing (struct-utils.h, ParseStructEncodingWithNames)
/-- `ParseStructEncodingWithNames`: parse the header; on an invalid
encoding return an empty result (the source leaves size and alignment
uninitialized there, modelled as 0); on an opaque struct return size 0
and alignment 1; otherwise parse the fields, apply known names at the
top level and one level into nested structs, compute offsets, and take
the total size and alignment the platform runtime reports for the whole
encoding. -/
def ParseStructEncodingWithNames (enc : List Char) : ParsedStructType :=
  let header := ParseStructEncodingHeader enc
  match header.fieldsStart with
  | none =>
    if header.empty then ⟨header.name, [], 0, 1⟩ else ⟨[], [], 0, 0⟩
  | some fs =>
    let raw := parseStructFieldsAux (fs.length + 1) 0 fs
    let named := applyNestedKnownNames (applyKnownNamesTop header.name raw)
    let fields := ComputeFieldOffsets (enc.length + 1) named
    let sa := modelNSGetSizeAndAlignment enc
    ⟨header.name, fields, sa.1, sa.2⟩

-- MARK: Cached parsing (struct-utils.h, GetOrParseStructEncoding)
/-- `GetOrParseStructEncoding` with the function-local static cache made
explicit: look the encoding up; on a hit return the cached value and
the unchanged cache, on a miss parse, insert and return.  (The source
cache is a function-local `static std::unordered_map` with no lock.) -/
def GetOrParseStructEncoding (cache : List (List Char × ParsedStructType))
    (enc : List Char) : ParsedStructType × List (List Char × ParsedStructType) :=
  match cache.find? fun p => p.1 = enc with
  | some p => (p.2, cache)
  | none =>
    let parsed := ParseStructEncodingWithNames enc
    (parsed, cache ++ [(enc, parsed)])

/-- A cache state is well formed when every entry holds the parse of its
key (every state reachable from the empty cache is). -/
def CacheWF (cache : List (List Char × ParsedStructType)) : Prop :=
  ∀ p ∈ cache, p.2 = ParseStructEncodingWithNames p.1

-- MARK: Claim C5 — offsets and total size
/-- The names of a field list. -/
def fieldNames (fields : List StructFieldInfo) : List (List Char) :=
  fields.map StructFieldInfo.name

/-- The sizes-and-alignments view of a field list. -/
def fieldSizeAligns (fields : List StructFieldInfo) : List (Nat × Nat) :=
  fields.map fun f => (f.size, f.alignment)

/-- The sum of the field sizes of a field list. -/
def sumFieldSizes (fields : List StructFieldInfo) : Nat :=
  (fields.map StructFieldInfo.size).sum

/-- The forward-pass offset recurrence of the claim: starting from a
running offset, each field's offset is the running offset rounded up to
the field's alignment, and the running offset continues past the
field. -/
def offsetsForwardPass : Nat → List StructFieldInfo → Prop
  | _, [] => True
  | cur, f :: rest => f.offset = alignUp cur f.alignment ∧ offsetsForwardPass (f.offset + f.size) rest

-- MARK: Struct pack/unpack (struct-utils.h)
/-- Read a numeric property as a double
(`obj.Get(k).As<Napi::Number>().DoubleValue()`); `none` models the JS
error thrown when the property is missing or not a number. -/
def getNumProp (js : JSValue) (k : List Char) : Option Dyadic :=
  match js.getProp k with
  | some (.num d) => some d
  | _ => none

/-- `TryPackCGPoint` on an object value: write `x` and `y` as two doubles
into a fresh buffer. -/
def TryPackCGPoint (js : JSValue) : Option ByteMem :=
  (getNumProp js "x".toList).bind fun x =>
    (getNumProp js "y".toList).map fun y =>
      writeMem (writeMem emptyMem 0 (.floatVal 8 x)) 8 (.floatVal 8 y)

/-- `TryUnpackCGPoint`: read two doubles and build `{x, y}`. -/
def TryUnpackCGPoint (m : ByteMem) : Option JSValue :=
  (readMem m 0 8).bind fun mx =>
    (readMem m 8 8).bind fun my =>
      match mx, my with
      | .floatVal 8 x, .floatVal 8 y =>
        some (.obj [("x".toList, .num x), ("y".toList, .num y)])
      | _, _ => none

/-- `TryPackCGSize` on an object value: write `width` and `height`. -/
def TryPackCGSize (js : JSValue) : Option ByteMem :=
  (getNumProp js "width".toList).bind fun w =>
    (getNumProp js "height".toList).map fun h =>
      writeMem (writeMem emptyMem 0 (.floatVal 8 w)) 8 (.floatVal 8 h)

/-- `TryUnpackCGSize`: read two doubles and build `{width, height}`. -/
def TryUnpackCGSize (m : ByteMem) : Option JSValue :=
  (readMem m 0 8).bind fun mw =>
    (readMem m 8 8).bind fun mh =>
      match mw, mh with
      | .floatVal 8 w, .floatVal 8 h =>
        some (.obj [("width".toList, .num w), ("height".toList, .num h)])
      | _, _ => none

/-- `TryPackCGRect` on an object value: write `origin.x`, `origin.y`,
`size.width`, `size.height` as four consecutive doubles. -/
def TryPackCGRect (js : JSValue) : Option ByteMem :=
  match js.getProp "origin".toList, js.getProp "size".toList with
  | some origin, some size =>
    (getNumProp origin "x".toList).bind fun x =>
      (getNumProp origin "y".toList).bind fun y =>
        (getNumProp size "width".toList).bind fun w =>
          (getNumProp size "height".toList).map fun h =>
            writeMem (writeMem (writeMem (writeMem emptyMem
              0 (.floatVal 8 x)) 8 (.floatVal 8 y)) 16 (.floatVal 8 w)) 24 (.floatVal 8 h)
  | _, _ => none

/-- `TryUnpackCGRect`: read four doubles and build
`{origin: {x, y}, size: {width, height}}`. -/
def TryUnpackCGRect (m : ByteMem) : Option JSValue :=
  (readMem m 0 8).bind fun mx =>
    (readMem m 8 8).bind fun my =>
      (readMem m 16 8).bind fun mw =>
        (readMem m 24 8).bind fun mh =>
          match mx, my, mw, mh with
          | .floatVal 8 x, .floatVal 8 y, .floatVal 8 w, .floatVal 8 h =>
            some (.obj [("origin".toList, .obj [("x".toList, .num x), ("y".toList, .num y)]),
              ("size".toList,
                .obj [("width".toList, .num w), ("height".toList, .num h)])])
          | _, _, _, _ => none

/-- `TryPackNSRange` on an object value: `location` and `length` through
`Int64Value`, cast to `uint64_t`, written as two 8-byte words. -/
def TryPackNSRange (js : JSValue) : Option ByteMem :=
  match js.getProp "location".toList, js.getProp "length".toList with
  | some lv, some nv =>
    (jsInt64 lv).bind fun l =>
      (jsInt64 nv).map fun n =>
        writeMem (writeMem emptyMem 0 (.intVal 8 (wrapUnsigned 8 l)))
          8 (.intVal 8 (wrapUnsigned 8 n))
  | _, _ => none

/-- `TryUnpackNSRange`: read two `uint64_t` words and convert each with
`static_cast<double>`. -/
def TryUnpackNSRange (m : ByteMem) : Option JSValue :=
  (readMem m 0 8).bind fun ml =>
    (readMem m 8 8).bind fun mn =>
      match ml, mn with
      | .intVal 8 l, .intVal 8 n =>
        some (.obj [("location".toList, .num (doubleOfInt (wrapUnsigned 8 l))),
          ("length".toList, .num (doubleOfInt (wrapUnsigned 8 n)))])
      | _, _ => none

/-- The validation prologue of `PackJSValueToStructBuffer`: reject values
that are neither objects nor arrays (a thrown `TypeError`); compute
whether the object carries the first field's name; when it does not,
require at least as many own properties as fields (else a thrown
error).  Returns (isArray, namesMatch, property names). -/
def structPackSetup (js : JSValue) (fields : List StructFieldInfo) :
    Option (Bool × Bool × List (List Char)) :=
  let isArray := js.isArrayJS
  let isObject := js.isObjectJS && !js.isArrayJS
  if !isArray && !isObject then none
  else
    let namesMatch := isObject &&
      (match fields with
        | [] => false
        | f :: _ => js.hasProp f.name)
    let propNames := js.propNames
    if isObject && !namesMatch && decide (propNames.length < fields.length) then none
    else some (isArray, namesMatch, propNames)

/-- The field loop of `PackJSValueToStructBuffer`: for each field take the
value by array index, by matching field name, or by own-property order;
recurse into nested structs (after the same validation) and write leaf
values through the marshaller at `base + offset`.  `none` models every
thrown error.  Fueled for kernel evaluation. -/
def packStructFields : Nat → JSValue → List StructFieldInfo → ByteMem → Nat → Nat →
    Bool → Bool → List (List Char) → Option ByteMem
  | 0, _, _, _, _, _, _, _, _ => none
  | fuel + 1, js, fields, buffer, base, i, isArray, namesMatch, propNames =>
    match fields with
    | [] => some buffer
    | f :: rest =>
      let fieldValue : Option JSValue :=
        if isArray then
          match js with
          | .arr elems => elems.get? i
          | _ => none
        else if namesMatch then some ((js.getProp f.name).getD .undefined)
        else (propNames.get? i).map fun key => (js.getProp key).getD .undefined
      match fieldValue with
      | none => none
      | some fv =>
        if f.isStruct && !f.subfields.isEmpty then
          match structPackSetup fv f.subfields with
          | none => none
          | some pr =>
            match packStructFields fuel fv f.subfields buffer (base + f.offset) 0
                pr.1 pr.2.1 pr.2.2 with
            | none => none
            | some b2 =>
              packStructFields fuel js rest b2 base (i + 1) isArray namesMatch propNames
        else
          match WriteLeafValueToBuffer fv f.typeEncoding buffer (base + f.offset) with
          | none => none
          | some b2 =>
            packStructFields fuel js rest b2 base (i + 1) isArray namesMatch propNames

/-- `PackJSValueToStructBuffer`: validate and run the field loop. -/
def PackJSValueToStructBuffer (fuel : Nat) (js : JSValue)
    (fields : List StructFieldInfo) (buffer : ByteMem) (baseOffset : Nat) :
    Option ByteMem :=
  match structPackSetup js fields with
  | none => none
  | some pr => packStructFields fuel js fields buffer baseOffset 0 pr.1 pr.2.1 pr.2.2

/-- The field loop of `UnpackStructBufferToJSObject`: read each field (a
nested struct recursively, a leaf through the marshaller) and collect
the `(name, value)` properties in field order. -/
def unpackStructFields : Nat → List StructFieldInfo → ByteMem → Nat →
    Option (List (List Char × JSValue))
  | 0, _, _, _ => none
  | fuel + 1, fields, buffer, base =>
    match fields with
    | [] => some []
    | f :: rest =>
      let fv : Option JSValue :=
        if f.isStruct && !f.subfields.isEmpty then
          (unpackStructFields fuel f.subfields buffer (base + f.offset)).map JSValue.obj
        else ReadLeafValueFromBuffer f.typeEncoding buffer (base + f.offset)
      match fv with
      | none => none
      | some v =>
        (unpackStructFields fuel rest buffer base).map fun others => (f.name, v) :: others

/-- `UnpackStructBufferToJSObject`: the recursive unpacker producing a JS
object keyed by field names. -/
def UnpackStructBufferToJSObject (fuel : Nat) (fields : List StructFieldInfo)
    (buffer : ByteMem) (baseOffset : Nat) : Option JSValue :=
  (unpackStructFields fuel fields buffer baseOffset).map JSValue.obj

/-- `PackJSValueAsStruct`: dispatch on the struct name — the four
specialized fast paths for the well-known geometry and range structs
(taken when the value is a non-array object), falling through to the
generic parser-driven walker (whose parse equals the cached lookup, see
the memoization theorem); packing fails (a thrown error) when the
encoding has no parseable fields. -/
def PackJSValueAsStruct (js : JSValue) (typeEncoding : List Char) : Option ByteMem :=
  let name := ExtractStructName typeEncoding
  let generic : Option ByteMem :=
    let parsed := ParseStructEncodingWithNames typeEncoding
    if parsed.fields.isEmpty then none
    else PackJSValueToStructBuffer (typeEncoding.length + 2) js parsed.fields emptyMem 0
  if name.isEmpty then generic
  else if name = "CGRect".toList ∨ name = "NSRect".toList then
    if js.isObjectJS && !js.isArrayJS then TryPackCGRect js else generic
  else if name = "CGPoint".toList ∨ name = "NSPoint".toList then
    if js.isObjectJS && !js.isArrayJS then TryPackCGPoint js else generic
  else if name = "CGSize".toList ∨ name = "NSSize".toList then
    if js.isObjectJS && !js.isArrayJS then TryPackCGSize js else generic
  else if name = "_NSRange".toList ∨ name = "NSRange".toList then
    if js.isObjectJS && !js.isArrayJS then TryPackNSRange js else generic
  else generic

/-- `UnpackStructToJSValue`: dispatch on the struct name — the four
specialized fast paths, falling through to the generic parser-driven
walker; an unparseable encoding yields `undefined` (the source logs and
returns `undefined`). -/
def UnpackStructToJSValue (m : ByteMem) (typeEncoding : List Char) : Option JSValue :=
  let name := ExtractStructName typeEncoding
  let generic : Option JSValue :=
    let parsed := ParseStructEncodingWithNames typeEncoding
    if parsed.fields.isEmpty then some .undefined
    else UnpackStructBufferToJSObject (typeEncoding.length + 2) parsed.fields m 0
  if name.isEmpty then generic
  else if name = "CGRect".toList ∨ name = "NSRect".toList then TryUnpackCGRect m
  else if name = "CGPoint".toList ∨ name = "NSPoint".toList then TryUnpackCGPoint m
  else if name = "CGSize".toList ∨ name = "NSSize".toList then TryUnpackCGSize m
  else if name = "_NSRange".toList ∨ name = "NSRange".toList then TryUnpackNSRange m
  else generic

/-- The canonical JS shape of a CGPoint/NSPoint. -/
def mkCGPointJS (x y : Dyadic) : JSValue :=
  .obj [("x".toList, .num x), ("y".toList, .num y)]

/-- The canonical JS shape of a CGSize/NSSize. -/
def mkCGSizeJS (w h : Dyadic) : JSValue :=
  .obj [("width".toList, .num w), ("height".toList, .num h)]

/-- The canonical JS shape of a CGRect/NSRect. -/
def mkCGRectJS (x y w h : Dyadic) : JSValue :=
  .obj [("origin".toList, mkCGPointJS x y), ("size".toList, mkCGSizeJS w h)]

/-- The canonical JS shape of an NSRange/_NSRange. -/
def mkNSRangeJS (loc len : Int) : JSValue :=
  .obj [("location".toList, .num (Dyadic.ofInt loc)),
    ("length".toList, .num (Dyadic.ofInt len))]

/-- Packing followed by unpacking at the same encoding. -/
def structRoundTrip (js : JSValue) (typeEncoding : List Char) : Option JSValue :=
  (PackJSValueAsStruct js typeEncoding).bind fun m => UnpackStructToJSValue m typeEncoding

-- MARK: Claim C10 — forwarding pipeline cache (forwarding-common.h)
/-- `ForwardingPipelineCache`: the thread-local memo of the
respondsToSelector → methodSignatureForSelector pipeline.  The key is an
instance/class pointer (abstract `Nat`), the selector an interned name,
and the stored type encoding a 128-byte C array filled by
`strncpy(…, 127)` plus a forced null terminator — hence at most the
first 127 characters of the stored encoding. -/
structure ForwardingPipelineCache where
  key : Nat
  selector : List Char
  typeEncoding : List Char
  valid : Bool
  deriving DecidableEq, Repr

/-- `ForwardingPipelineCache::store`: record key and selector, copy at most
127 characters of the encoding, and mark valid. -/
def ForwardingPipelineCache.store (_c : ForwardingPipelineCache) (k : Nat)
    (sel encoding : List Char) : ForwardingPipelineCache :=
  { key := k, selector := sel, typeEncoding := encoding.take 127, valid := true }

/-- `ForwardingPipelineCache::invalidate`. -/
def ForwardingPipelineCache.invalidate (c : ForwardingPipelineCache) :
    ForwardingPipelineCache :=
  { c with valid := false }

/-- `ForwardingPipelineCache::matches`. -/
def ForwardingPipelineCache.matchesKey (c : ForwardingPipelineCache) (k : Nat)
    (sel : List Char) : Bool :=
  c.valid && decide (c.key = k) && decide (c.selector = sel)

-- MARK: Claim C8 — the C-string ('*') marshalling paths
/-- Modelled from the spec: the `ObjcType` variant produced by
`AsObjCArgument` (bridge.h, whose implementation is not under src/):
per §4.2 of the spec each type code converts the JS value to a typed
slot, with `*` accepting a JS string (its character data is kept only
for the call frame) and refusing anything else. -/
inductive ObjcTypeV where
  | voidV
  | strV (s : List Char)
  | idV (o : Option Nat)
  | clsV (o : Option Nat)
  | selV (s : List Char)
  | ptrV (p : PtrVal)
  | intV (width : Nat) (v : Int)
  | floatV (width : Nat) (v : Dyadic)
  | boolV (b : Bool)
  deriving DecidableEq, Repr

/-- Modelled from the spec: `AsObjCArgument` — convert a JS value to the
`ObjcType` variant for one declared encoding (the conversions of §4.2;
a mismatch refuses, surfacing as `none`). -/
def AsObjCArgument (js : JSValue) (enc : List Char) : Option ObjcTypeV :=
  let code := headCharD (SimplifyTypeEncoding enc)
  match code with
  | '*' =>
    match js with
    | .str s => some (.strV s)
    | _ => none
  | '@' =>
    match js with
    | .null => some (.idV none)
    | .undefined => some (.idV none)
    | .wrapped o => some (.idV o)
    | _ => none
  | '#' =>
    match js with
    | .null => some (.clsV none)
    | .undefined => some (.clsV none)
    | .wrapped o => some (.clsV o)
    | _ => none
  | ':' =>
    match js with
    | .str s => some (.selV s)
    | _ => none
  | '^' =>
    match js with
    | .buffer b => some (.ptrV (.bufData b))
    | .null => some (.ptrV .null)
    | .undefined => some (.ptrV .null)
    | _ => none
  | 'c' => (jsInt64 js).map fun v => .intV 1 (wrapSigned 1 v)
  | 'i' => (jsInt64 js).map fun v => .intV 4 (wrapSigned 4 v)
  | 's' => (jsInt64 js).map fun v => .intV 2 (wrapSigned 2 v)
  | 'l' => (jsInt64 js).map fun v => .intV 8 (wrapSigned 8 v)
  | 'q' => (jsInt64 js).map fun v => .intV 8 (wrapSigned 8 v)
  | 'C' => (jsInt64 js).map fun v => .intV 1 (wrapUnsigned 1 v)
  | 'I' => (jsInt64 js).map fun v => .intV 4 (wrapUnsigned 4 v)
  | 'S' => (jsInt64 js).map fun v => .intV 2 (wrapUnsigned 2 v)
  | 'L' => (jsInt64 js).map fun v => .intV 8 (wrapUnsigned 8 v)
  | 'Q' => (jsInt64 js).map fun v => .intV 8 (wrapUnsigned 8 v)
  | 'f' => (jsDouble js).map fun d => .floatV 4 (fpRound 24 d)
  | 'd' => (jsDouble js).map fun d => .floatV 8 d
  | 'B' => some (.boolV (jsToBoolean js))
  | 'v' => some .voidV
  | _ => none

/-- `ExtractJSArgumentToBuffer` (ffi-utils.h): convert through
`AsObjCArgument` and visit the variant, storing each slot into the
buffer — in particular a string slot stores its character-data pointer
(`innerArg.c_str()`). -/
def ExtractJSArgumentToBuffer (js : JSValue) (typeEncoding : List Char)
    (buffer : ByteMem) (offset : Nat) : Option ByteMem :=
  (AsObjCArgument js typeEncoding).map fun t =>
    match t with
    | .voidV => buffer
    | .strV s => writeMem buffer offset (.ptrVal (.strData s))
    | .idV (some o) => writeMem buffer offset (.ptrVal (.objPtr o))
    | .idV none => writeMem buffer offset (.ptrVal .null)
    | .clsV (some o) => writeMem buffer offset (.ptrVal (.objPtr o))
    | .clsV none => writeMem buffer offset (.ptrVal .null)
    | .selV s => writeMem buffer offset (.ptrVal (.selPtr s))
    | .ptrV p => writeMem buffer offset (.ptrVal p)
    | .intV w v => writeMem buffer offset (.intVal w v)
    | .floatV w d => writeMem buffer offset (.floatVal w d)
    | .boolV b => writeMem buffer offset (.intVal 1 (if b then 1 else 0))

-- MARK: Claim C4 — error containment for block and forwarded invocations
/-- `asSigned64` (local helper of `SetInvocationReturnFromJS`,
type-conversion.h): booleans convert to 0/1, numbers through
`Int64Value`, anything else fails. -/
def asSigned64 (js : JSValue) : Option Int :=
  match js with
  | .jsBool b => some (if b then 1 else 0)
  | .num d => some (wrapSigned 8 d.truncToInt)
  | _ => none

/-- `asUnsigned64` (local helper of `SetInvocationReturnFromJS`):
booleans convert to 0/1, numbers through `Int64Value` cast to
`uint64_t`, anything else fails. -/
def asUnsigned64 (js : JSValue) : Option Int :=
  match js with
  | .jsBool b => some (if b then 1 else 0)
  | .num d => some (wrapUnsigned 8 (wrapSigned 8 d.truncToInt))
  | _ => none

/-- `asDouble` (local helper of `SetInvocationReturnFromJS`): booleans
convert to 0.0/1.0, numbers through `DoubleValue`, anything else
fails. -/
def asDouble (js : JSValue) : Option Dyadic :=
  match js with
  | .jsBool b => some (if b then ⟨1, 0⟩ else ⟨0, 0⟩)
  | .num d => some d
  | _ => none

/-- `SetBlockReturnFromJS` (nobjc_block.h): convert a JS return value and
write it into the FFI return slot.  The result is the machine value
written; `none` means nothing is written and the slot keeps the
zero-initialized contents FFI gave it (void returns, null/undefined on
numeric codes, conversion failures, unsupported codes). -/
def SetBlockReturnFromJS (result : JSValue) (typeEncoding : List Char) :
    Option MachineVal :=
  let code := headCharD (SimplifyTypeEncoding typeEncoding)
  if code = 'v' then none
  else
    match result with
    | .null => if code = '@' ∨ code = '#' then some (.ptrVal .null) else none
    | .undefined => if code = '@' ∨ code = '#' then some (.ptrVal .null) else none
    | _ =>
      match code with
      | 'c' => (jsInt32 result).map fun v => .intVal 1 (wrapSigned 1 v)
      | 'i' => (jsInt32 result).map fun v => .intVal 4 v
      | 's' => (jsInt32 result).map fun v => .intVal 2 (wrapSigned 2 v)
      | 'l' => (jsInt64 result).map fun v => .intVal 8 v
      | 'q' => (jsInt64 result).map fun v => .intVal 8 v
      | 'C' => (jsUint32 result).map fun v => .intVal 1 (wrapUnsigned 1 v)
      | 'I' => (jsUint32 result).map fun v => .intVal 4 v
      | 'S' => (jsUint32 result).map fun v => .intVal 2 (wrapUnsigned 2 v)
      | 'L' => (jsInt64 result).map fun v => .intVal 8 (wrapUnsigned 8 v)
      | 'Q' => (jsInt64 result).map fun v => .intVal 8 (wrapUnsigned 8 v)
      | 'f' => (jsDouble result).map fun d => .floatVal 4 (fpRound 24 d)
      | 'd' => (jsDouble result).map fun d => .floatVal 8 d
      | 'B' =>
        match result with
        | .jsBool b => some (.intVal 1 (if b then 1 else 0))
        | .num d => some (.intVal 1 (if wrapSigned 4 d.truncToInt ≠ 0 then 1 else 0))
        | _ => some (.intVal 1 0)
      | '@' =>
        match result with
        | .wrapped (some o) => some (.ptrVal (.objPtr o))
        | _ => some (.ptrVal .null)
      | '#' =>
        match result with
        | .wrapped (some o) => some (.ptrVal (.objPtr o))
        | _ => some (.ptrVal .null)
      | _ => none

/-- `SetInvocationReturnFromJS` (type-conversion.h): set the return value
on an `NSInvocation` from a JS value.  The result is the machine value
passed to `setReturnValue:`; `none` means `setReturnValue:` is never
called and the invocation's return slot keeps its prior (zero) state. -/
def SetInvocationReturnFromJS (result : JSValue) (typeCode : Char) :
    Option MachineVal :=
  match result with
  | .null => if typeCode = '@' then some (.ptrVal .null) else none
  | .undefined => if typeCode = '@' then some (.ptrVal .null) else none
  | _ =>
    match typeCode with
    | 'c' => (asSigned64 result).map fun v => .intVal 1 (wrapSigned 1 v)
    | 'i' => (asSigned64 result).map fun v => .intVal 4 (wrapSigned 4 v)
    | 's' => (asSigned64 result).map fun v => .intVal 2 (wrapSigned 2 v)
    | 'l' => (asSigned64 result).map fun v => .intVal 8 v
    | 'q' => (asSigned64 result).map fun v => .intVal 8 v
    | 'C' => (asUnsigned64 result).map fun v => .intVal 1 (wrapUnsigned 1 v)
    | 'I' => (asUnsigned64 result).map fun v => .intVal 4 (wrapUnsigned 4 v)
    | 'S' => (asUnsigned64 result).map fun v => .intVal 2 (wrapUnsigned 2 v)
    | 'L' => (asUnsigned64 result).map fun v => .intVal 8 v
    | 'Q' => (asUnsigned64 result).map fun v => .intVal 8 v
    | 'f' => (asDouble result).map fun d => .floatVal 4 (fpRound 24 d)
    | 'd' => (asDouble result).map fun d => .floatVal 8 d
    | 'B' =>
      match result with
      | .jsBool b => some (.intVal 1 (if b then 1 else 0))
      | .num d => some (.intVal 1 (if wrapSigned 4 d.truncToInt ≠ 0 then 1 else 0))
      | _ => none
    | '@' =>
      match result with
      | .wrapped (some o) => some (.ptrVal (.objPtr o))
      | .wrapped none => some (.ptrVal .null)
      | _ => none
    | _ => none

/-- Outcome of one native-to-JS callback dispatch: the value written into
the ObjC return slot (`none` = the slot is left with its
zero/nil-initialized contents), whether control returned normally to
the native caller, and whether an error was logged. -/
structure CallbackOutcome where
  retSlot : Option MachineVal
  returnedNormally : Bool
  errorLogged : Bool
  deriving DecidableEq, Repr

/-- Outcome of the cross-thread TSFN dispatch, which additionally signals
`isComplete` so the waiting invoker thread is released. -/
structure BlockTSFNOutcome where
  retSlot : Option MachineVal
  returnedNormally : Bool
  errorLogged : Bool
  isComplete : Bool
  deriving DecidableEq, Repr

/-- `BlockInvokeCallback` (nobjc_block.h), direct same-thread path: call
the JS function inside try/catch; on success convert the return value
when a return slot exists and the return type is not `v`; on a JS
error log it, write nothing, and fall off the catch normally. -/
def BlockInvokeDirect (jsFn : List JSValue → Except (List Char) JSValue)
    (args : List JSValue) (returnType : List Char) (hasRetSlot : Bool) :
    CallbackOutcome :=
  match jsFn args with
  | .error _ => { retSlot := none, returnedNormally := true, errorLogged := true }
  | .ok result =>
    if hasRetSlot ∧ returnType ≠ ['v'] then
      { retSlot := SetBlockReturnFromJS result returnType,
        returnedNormally := true, errorLogged := false }
    else
      { retSlot := none, returnedNormally := true, errorLogged := false }

/-- `BlockTSFNCallback` (nobjc_block.h), cross-thread path: same try/catch
policy, and `isComplete` is signalled unconditionally after the
try/catch so the blocked invoker thread always wakes. -/
def BlockTSFNCallback (jsFn : List JSValue → Except (List Char) JSValue)
    (args : List JSValue) (returnType : List Char) (hasRetSlot : Bool) :
    BlockTSFNOutcome :=
  match jsFn args with
  | .error _ =>
    { retSlot := none, returnedNormally := true, errorLogged := true,
      isComplete := true }
  | .ok result =>
    if hasRetSlot then
      { retSlot := SetBlockReturnFromJS result returnType,
        returnedNormally := true, errorLogged := false, isComplete := true }
    else
      { retSlot := none, returnedNormally := true, errorLogged := false,
        isComplete := true }

/-- Modelled from the spec: the forwarded-invocation dispatcher (the
method-forwarding call site lives outside src/) calls the JS callback
inside the same try/catch policy and, on success, sets the
`NSInvocation` return through `SetInvocationReturnFromJS`; on a JS
error it logs, leaves the return slot zero/nil and returns normally. -/
def ForwardedJSCallback (jsFn : List JSValue → Except (List Char) JSValue)
    (args : List JSValue) (retCode : Char) : CallbackOutcome :=
  match jsFn args with
  | .error _ => { retSlot := none, returnedNormally := true, errorLogged := true }
  | .ok result =>
    { retSlot := SetInvocationReturnFromJS result retCode,
      returnedNormally := true, errorLogged := false }

-- MARK: Claim C9 — block creation fallback and heuristic arg conversion
/-- `BlockSignature` (nobjc_block.h): parsed return type, parameter type
encodings, and validity. -/
structure BlockSignature where
  returnType : List Char
  paramTypes : List (List Char)
  valid : Bool
  deriving DecidableEq, Repr

/-- The parameter-collection loop of `ParseBlockSignature`: repeatedly
skip one type-encoding token, keeping the non-empty ones.  Fueled for
kernel evaluation. -/
def collectBlockParams : Nat → List Char → List (List Char)
  | 0, _ => []
  | fuel + 1, l =>
    match l with
    | [] => []
    | c :: rest =>
      let t := SkipOneTypeEncoding (c :: rest)
      if t.1.isEmpty then collectBlockParams fuel t.2
      else t.1 :: collectBlockParams fuel t.2

/-- `ParseBlockSignature` (nobjc_block.h): simplify the encoding, require
the `@?<…>` extended form, scan to the matching `>` tracking depth,
then read the return type, skip the block-self token, and collect the
parameter tokens.  Anything without the extended form is invalid. -/
def ParseBlockSignature (encoding : List Char) : BlockSignature :=
  let simplified := SimplifyTypeEncoding encoding
  match simplified with
  | '@' :: '?' :: '<' :: innerStart =>
    let pr := skipBalancedAux '<' '>' (innerStart.length + 1) 1 innerStart
    let inner := pr.1.dropLast
    let t1 := SkipOneTypeEncoding inner
    let afterSelf := (SkipOneTypeEncoding t1.2).2
    { returnType := t1.1,
      paramTypes := collectBlockParams (afterSelf.length + 1) afterSelf,
      valid := true }
  | _ => { returnType := [], paramTypes := [], valid := false }

/-- The signature actually used by `CreateBlockFromJSFunction`
(nobjc_block.h): the parsed one when valid, otherwise the fallback —
void return and `jsFn.length` parameters of unknown type `?`. -/
def CreateBlockFromJSFunctionSignature (typeEncoding : List Char)
    (jsFnLength : Nat) : BlockSignature :=
  let sig := ParseBlockSignature typeEncoding
  if sig.valid then sig
  else { returnType := ['v'], paramTypes := List.replicate jsFnLength ['?'],
         valid := true }

/-- The `ffi_type` values the bridge selects (ffi-utils.h); `structT`
carries the element types of a struct/union. -/
inductive FFIType where
  | pointer
  | voidT
  | sint8
  | sint16
  | sint32
  | sint64
  | uint8
  | uint16
  | uint32
  | uint64
  | slong
  | ulong
  | floatT
  | doubleT
  | structT (elements : List FFIType)

/-- `GetFFITypeForSimpleEncoding` (ffi-utils.h). -/
def GetFFITypeForSimpleEncoding (typeCode : Char) : FFIType :=
  match typeCode with
  | 'c' => .sint8
  | 'i' => .sint32
  | 's' => .sint16
  | 'l' => .slong
  | 'q' => .sint64
  | 'C' => .uint8
  | 'I' => .uint32
  | 'S' => .uint16
  | 'L' => .ulong
  | 'Q' => .uint64
  | 'f' => .floatT
  | 'd' => .doubleT
  | 'B' => .uint8
  | '@' => .pointer
  | '#' => .pointer
  | ':' => .pointer
  | '*' => .pointer
  | '^' => .pointer
  | 'v' => .voidT
  | _ => .voidT

/-- Modelled from the spec: `SkipOneFieldEncoding` (declared in the
sources but implemented outside src/) skips an optional quoted field
name and returns the following type-encoding token. -/
def SkipOneFieldEncoding (l : List Char) : List Char × List Char :=
  match l with
  | c :: rest =>
    if c = dquoteChar then
      let name := rest.takeWhile (· ≠ dquoteChar)
      SkipOneTypeEncoding (rest.drop (name.length + 1))
    else SkipOneTypeEncoding l
  | [] => ([], [])

/-- The field loop of `ParseStructEncoding` (ffi-utils.h): skip
qualifiers, stop at `\x7d` or the end, otherwise take one field
encoding per iteration.  Fueled for kernel evaluation. -/
def parseStructFieldFFITokens : Nat → List Char → List (List Char)
  | 0, _ => []
  | fuel + 1, l =>
    let l2 := SimplifyTypeEncoding l
    match l2 with
    | [] => []
    | c :: rest =>
      if c = braceClose then []
      else
        let t := SkipOneFieldEncoding (c :: rest)
        t.1 :: parseStructFieldFFITokens fuel t.2

/-- `GetFFITypeForEncoding` (ffi-utils.h): structs/unions go through
`ParseStructEncoding` (field-wise recursion, empty or invalid cases
yielding the void type), everything else through the simple table.
Fueled on nesting depth for kernel evaluation. -/
def GetFFITypeForEncoding : Nat → List Char → FFIType
  | 0, _ => .voidT
  | fuel + 1, encoding =>
    match encoding with
    | [] => .voidT
    | _ =>
      let simple := SimplifyTypeEncoding encoding
      let firstChar := headCharD simple
      if firstChar = braceOpen ∨ firstChar = '(' then
        let header := ParseStructEncodingHeader simple
        if header.empty then .voidT
        else
          match header.fieldsStart with
          | none => .voidT
          | some fs =>
            let toks := parseStructFieldFFITokens (fs.length + 1) fs
            if toks.isEmpty then .voidT
            else .structT (toks.map fun t => GetFFITypeForEncoding fuel t)
      else GetFFITypeForSimpleEncoding firstChar

/-- The per-parameter `ffi_type` selection inside
`CreateBlockFromJSFunction` (nobjc_block.h): `?` (unknown, inferred
from `jsFn.length`) is treated as a pointer; structs go through the
full parser; everything else through the simple table. -/
def blockParamFFIType (paramType : List Char) : FFIType :=
  let simplified := SimplifyTypeEncoding paramType
  if headCharD simplified = '?' then .pointer
  else if headCharD simplified = braceOpen then
    GetFFITypeForEncoding (simplified.length + 1) simplified
  else GetFFITypeForSimpleEncoding (headCharD simplified)

/-- `LooksLikeObjCObject` (nobjc_block.h) over a 64-bit raw value.  The
two runtime probes are abstracted as oracles: `inMallocZone` models
`malloc_zone_from_ptr(ptr) != NULL` and `validClass` models
`object_getClass(ptr) != nil`.  Zero is nil; a set high bit means a
tagged pointer (always an object); values below 4096 are never
objects; heap values are objects exactly when the class probe
passes. -/
def LooksLikeObjCObject (inMallocZone validClass : Nat → Bool) (val : Nat) :
    Bool :=
  if val = 0 then false
  else if val.testBit 63 then true
  else if val < 4096 then false
  else if !inMallocZone val then false
  else validClass val

/-- `ConvertBlockArgHeuristic` (nobjc_block.h): zero becomes the JS
number 0; a value that looks like an ObjC object is wrapped; anything
else becomes a JS number via `static_cast<double>`. -/
def ConvertBlockArgHeuristic (inMallocZone validClass : Nat → Bool)
    (val : Nat) : JSValue :=
  if val = 0 then .num ⟨0, 0⟩
  else if LooksLikeObjCObject inMallocZone validClass val then
    .wrapped (some val)
  else .num (doubleOfInt (val : Int))

/-- A byte buffer viewed from a base offset (the `argPtr` arithmetic of
the FFI callbacks). -/
def shiftMem (m : ByteMem) (off : Nat) : ByteMem := fun a => m (off + a)

/-- `ConvertBlockArgToJS` (nobjc_block.h): `?` parameters read the raw
pointer-sized word and apply the heuristic; `@?` block arguments are
wrapped as opaque objects; structs are unpacked; everything else goes
through `ObjCToJS`. -/
def ConvertBlockArgToJS (inMallocZone validClass : Nat → Bool) (m : ByteMem)
    (off : Nat) (typeEncoding : List Char) : Option JSValue :=
  let simplified := SimplifyTypeEncoding typeEncoding
  let code := headCharD simplified
  if code = '?' then
    (readMem m off 8).bind fun mv =>
      match mv with
      | .intVal 8 v =>
        some (ConvertBlockArgHeuristic inMallocZone validClass
          (v % (2 : Int) ^ 64).toNat)
      | .ptrVal .null => some (ConvertBlockArgHeuristic inMallocZone validClass 0)
      | _ => none
  else if code = '@' ∧ headCharD (simplified.drop 1) = '?' then
    (readMem m off 8).bind fun mv =>
      match mv with
      | .ptrVal .null => some JSValue.null
      | .ptrVal (.objPtr o) => some (.wrapped (some o))
      | _ => none
  else if code = braceOpen then
    UnpackStructToJSValue (shiftMem m off) simplified
  else ReadLeafValueFromBuffer simplified m off

-- MARK: Theorems

theorem list_all_congr {α : Type} (l : List α) (f g : α → Bool)
    (h : ∀ a ∈ l, f a = g a) : l.all f = l.all g := by
  induction l with
  | nil => rfl
  | cons a l ih =>
    simp only [List.all_cons, h a (by simp)]
    rw [ih fun b hb => h b (by simp [hb])]

theorem writeMem_cover (m : ByteMem) (off : Nat) (v : MachineVal) (k : Nat)
    (hk : k < v.size) : writeMem m off v (off + k) = some (v, k) := by
  simp only [writeMem]
  rw [if_pos (⟨Nat.le_add_right off k, by omega⟩ :
    off ≤ off + k ∧ off + k < off + v.size)]
  rw [show off + k - off = k by omega]

theorem readMem_writeMem (m : ByteMem) (off : Nat) (v : MachineVal) (h : 0 < v.size) :
    readMem (writeMem m off v) off v.size = some v := by
  have h0 : writeMem m off v off = some (v, 0) := by
    simpa using writeMem_cover m off v 0 h
  have hall : ((List.range v.size).all fun k =>
      decide (writeMem m off v (off + k) = some (v, k))) = true := by
    rw [List.all_eq_true]
    intro k hk
    simpa using writeMem_cover m off v k (List.mem_range.mp hk)
  unfold readMem
  rw [h0]
  simp [hall]

theorem readMem_congr (m1 m2 : ByteMem) (off sz : Nat) (hsz : 0 < sz)
    (h : ∀ k, k < sz → m1 (off + k) = m2 (off + k)) :
    readMem m1 off sz = readMem m2 off sz := by
  have h0 : m1 off = m2 off := by simpa using h 0 hsz
  unfold readMem
  rw [h0]
  rcases hm : m2 off with _ | ⟨v0, k0⟩
  · rfl
  rcases k0 with _ | k0
  · have hall : ((List.range sz).all fun k => decide (m1 (off + k) = some (v0, k))) =
        ((List.range sz).all fun k => decide (m2 (off + k) = some (v0, k))) := by
      apply list_all_congr
      intro k hk
      simp only [h k (List.mem_range.mp hk)]
    dsimp only
    rw [hall]
  · rfl

theorem readMem_writeMem_disjoint (m : ByteMem) (off sz off2 : Nat) (v : MachineVal)
    (hsz : 0 < sz) (h : off + sz ≤ off2 ∨ off2 + v.size ≤ off) :
    readMem (writeMem m off2 v) off sz = readMem m off sz := by
  apply readMem_congr _ _ _ _ hsz
  intro k hk
  unfold writeMem
  rw [if_neg]
  omega

theorem truncToInt_ofInt (n : Int) : Dyadic.truncToInt ⟨n, 0⟩ = n := by
  unfold Dyadic.truncToInt
  norm_num

theorem doubleOfInt_small (n : Int) (h1 : -(2 ^ 53) ≤ n) (h2 : n ≤ 2 ^ 53) :
    doubleOfInt n = ⟨n, 0⟩ := by
  unfold doubleOfInt
  rw [if_pos ⟨h1, h2⟩]

theorem simplify_single (c : Char) (h : c ∉ typeQualifiers) :
    SimplifyTypeEncoding [c] = [c] := by
  simp [SimplifyTypeEncoding, List.dropWhile_cons, h]

theorem leafRoundTrip_eq (js : JSValue) (code : Char) (m : ByteMem) (off : Nat)
    (v : MachineVal) (hq : code ∉ typeQualifiers)
    (hw : writeLeafMachineVal js code = some v)
    (hs : v.size = widthOfTypeCode code) (hpos : 0 < v.size) :
    leafRoundTrip js code m off = ObjCToJS v code := by
  unfold leafRoundTrip WriteLeafValueToBuffer ReadLeafValueFromBuffer
  simp only [simplify_single code hq, headCharD, List.headD, hw, Option.map_some',
    Option.some_bind]
  rw [← hs, readMem_writeMem m off v hpos, Option.some_bind]

/-- Claim C2: for every supported primitive type code, writing a JS value
in the code's lossless range into a raw buffer via the marshaller's
JS-to-buffer writer and reading the same buffer back via the
buffer-to-JS reader yields the same JS value (values outside that range
are truncated as documented, e.g. `q`/`Q` beyond `2 ^ 53`). -/
theorem primitive_marshal_roundtrip (code : Char) (hc : code ∈ primCodes)
    (js : JSValue) (h : leafInRange code js) (m : ByteMem) (off : Nat) :
    leafRoundTrip js code m off = some js := by
  simp only [primCodes, List.mem_cons, List.not_mem_nil, or_false] at hc
  rcases hc with rfl | rfl | rfl | rfl | rfl | rfl | rfl | rfl | rfl | rfl | rfl | rfl | rfl
  · -- c
    obtain ⟨n, rfl, h1, h2⟩ := h
    have hw8 : wrapSigned 8 n = n := by unfold wrapSigned; omega
    have hww : wrapSigned 1 n = n := by unfold wrapSigned; omega
    rw [leafRoundTrip_eq _ _ _ _ (.intVal 1 n) (by decide)
      (by simp [writeLeafMachineVal, jsInt64, jsDouble, truncToInt_ofInt, hw8, hww]) (by rfl)
      (by norm_num [MachineVal.size])]
    simp [ObjCToJS, hww, doubleOfInt_small n (by omega) (by omega)]
  · -- i
    obtain ⟨n, rfl, h1, h2⟩ := h
    have hw8 : wrapSigned 8 n = n := by unfold wrapSigned; omega
    have hww : wrapSigned 4 n = n := by unfold wrapSigned; omega
    rw [leafRoundTrip_eq _ _ _ _ (.intVal 4 n) (by decide)
      (by simp [writeLeafMachineVal, jsInt64, jsDouble, truncToInt_ofInt, hw8, hww]) (by rfl)
      (by norm_num [MachineVal.size])]
    simp [ObjCToJS, hww, doubleOfInt_small n (by omega) (by omega)]
  · -- s
    obtain ⟨n, rfl, h1, h2⟩ := h
    have hw8 : wrapSigned 8 n = n := by unfold wrapSigned; omega
    have hww : wrapSigned 2 n = n := by unfold wrapSigned; omega
    rw [leafRoundTrip_eq _ _ _ _ (.intVal 2 n) (by decide)
      (by simp [writeLeafMachineVal, jsInt64, jsDouble, truncToInt_ofInt, hw8, hww]) (by rfl)
      (by norm_num [MachineVal.size])]
    simp [ObjCToJS, hww, doubleOfInt_small n (by omega) (by omega)]
  · -- l
    obtain ⟨n, rfl, h1, h2⟩ := h
    have hw8 : wrapSigned 8 n = n := by unfold wrapSigned; omega
    rw [leafRoundTrip_eq _ _ _ _ (.intVal 8 n) (by decide)
      (by simp [writeLeafMachineVal, jsInt64, jsDouble, truncToInt_ofInt, hw8]) (by rfl)
      (by norm_num [MachineVal.size])]
    simp [ObjCToJS, hw8, doubleOfInt_small n (by omega) (by omega)]
  · -- q
    obtain ⟨n, rfl, h1, h2⟩ := h
    have hw8 : wrapSigned 8 n = n := by unfold wrapSigned; omega
    rw [leafRoundTrip_eq _ _ _ _ (.intVal 8 n) (by decide)
      (by simp [writeLeafMachineVal, jsInt64, jsDouble, truncToInt_ofInt, hw8]) (by rfl)
      (by norm_num [MachineVal.size])]
    simp [ObjCToJS, hw8, doubleOfInt_small n (by omega) (by omega)]
  · -- C
    obtain ⟨n, rfl, h1, h2⟩ := h
    have hw8 : wrapSigned 8 n = n := by unfold wrapSigned; omega
    have hww : wrapUnsigned 1 n = n := by unfold wrapUnsigned; omega
    rw [leafRoundTrip_eq _ _ _ _ (.intVal 1 n) (by decide)
      (by simp [writeLeafMachineVal, jsInt64, jsDouble, truncToInt_ofInt, hw8, hww]) (by rfl)
      (by norm_num [MachineVal.size])]
    simp [ObjCToJS, hww, doubleOfInt_small n (by omega) (by omega)]
  · -- I
    obtain ⟨n, rfl, h1, h2⟩ := h
    have hw8 : wrapSigned 8 n = n := by unfold wrapSigned; omega
    have hww : wrapUnsigned 4 n = n := by unfold wrapUnsigned; omega
    rw [leafRoundTrip_eq _ _ _ _ (.intVal 4 n) (by decide)
      (by simp [writeLeafMachineVal, jsInt64, jsDouble, truncToInt_ofInt, hw8, hww]) (by rfl)
      (by norm_num [MachineVal.size])]
    simp [ObjCToJS, hww, doubleOfInt_small n (by omega) (by omega)]
  · -- S
    obtain ⟨n, rfl, h1, h2⟩ := h
    have hw8 : wrapSigned 8 n = n := by unfold wrapSigned; omega
    have hww : wrapUnsigned 2 n = n := by unfold wrapUnsigned; omega
    rw [leafRoundTrip_eq _ _ _ _ (.intVal 2 n) (by decide)
      (by simp [writeLeafMachineVal, jsInt64, jsDouble, truncToInt_ofInt, hw8, hww]) (by rfl)
      (by norm_num [MachineVal.size])]
    simp [ObjCToJS, hww, doubleOfInt_small n (by omega) (by omega)]
  · -- L
    obtain ⟨n, rfl, h1, h2⟩ := h
    have hw8 : wrapSigned 8 n = n := by unfold wrapSigned; omega
    have hww : wrapUnsigned 8 n = n := by unfold wrapUnsigned; omega
    rw [leafRoundTrip_eq _ _ _ _ (.intVal 8 n) (by decide)
      (by simp [writeLeafMachineVal, jsInt64, jsDouble, truncToInt_ofInt, hw8, hww]) (by rfl)
      (by norm_num [MachineVal.size])]
    simp [ObjCToJS, hww, doubleOfInt_small n (by omega) (by omega)]
  · -- Q
    obtain ⟨n, rfl, h1, h2⟩ := h
    have hw8 : wrapSigned 8 n = n := by unfold wrapSigned; omega
    have hww : wrapUnsigned 8 n = n := by unfold wrapUnsigned; omega
    rw [leafRoundTrip_eq _ _ _ _ (.intVal 8 n) (by decide)
      (by simp [writeLeafMachineVal, jsInt64, jsDouble, truncToInt_ofInt, hw8, hww]) (by rfl)
      (by norm_num [MachineVal.size])]
    simp [ObjCToJS, hww, doubleOfInt_small n (by omega) (by omega)]
  · -- f
    obtain ⟨d, rfl, hfix⟩ := h
    rw [leafRoundTrip_eq _ _ _ _ (.floatVal 4 d) (by decide)
      (by simp [writeLeafMachineVal, jsDouble, hfix]) (by rfl) (by norm_num [MachineVal.size])]
    simp [ObjCToJS]
  · -- d
    obtain ⟨d, rfl⟩ := h
    rw [leafRoundTrip_eq _ _ _ _ (.floatVal 8 d) (by decide)
      (by simp [writeLeafMachineVal, jsDouble]) (by rfl) (by norm_num [MachineVal.size])]
    simp [ObjCToJS]
  · -- B
    obtain ⟨b, rfl⟩ := h
    rw [leafRoundTrip_eq _ _ _ _ (.intVal 1 (if b then 1 else 0)) (by decide)
      (by simp [writeLeafMachineVal, jsToBoolean]) (by rfl) (by norm_num [MachineVal.size])]
    cases b <;> simp [ObjCToJS]

/-- Witness for the round-trip theorem at code `i` and value 42. -/
theorem primitive_marshal_roundtrip_witness :
    ('i' ∈ primCodes ∧ leafInRange 'i' (.num ⟨42, 0⟩)) ∧
      leafRoundTrip (.num ⟨42, 0⟩) 'i' emptyMem 0 = some (.num ⟨42, 0⟩) :=
  ⟨⟨by decide, ⟨42, rfl, by decide, by decide⟩⟩,
    primitive_marshal_roundtrip 'i' (by decide) (.num ⟨42, 0⟩)
      ⟨42, rfl, by decide, by decide⟩ emptyMem 0⟩

/-- Claim C1: a handle constructed from a non-nil `id` issues exactly one
retain at construction and exactly one release at finalization — the
whole lifecycle is `[retain, release]`, so the object's retain count
returns to its pre-wrap value — and no handle, whatever its state, ever
releases more than once (a second finalization is a no-op). -/
theorem objc_object_retain_parity :
    (∀ o : Nat,
      (ObjcObjectConstruct (.external (some o))).2 = [.retain o] ∧
      (ObjcObjectDestruct (ObjcObjectConstruct (.external (some o))).1).2 =
        [.release o] ∧
      (ObjcObjectConstruct (.external (some o))).2 ++
          (ObjcObjectDestruct (ObjcObjectConstruct (.external (some o))).1).2 =
        [.retain o, .release o]) ∧
    (∀ h : ObjcObjectHandle,
      (ObjcObjectDestruct (ObjcObjectDestruct h).1).2 = [] ∧
      (ObjcObjectDestruct h).2.length ≤ 1) := by
  constructor
  · intro o
    exact ⟨rfl, rfl, rfl⟩
  · intro h
    rcases h with ⟨_ | o⟩
    · exact ⟨rfl, by simp [ObjcObjectDestruct]⟩
    · exact ⟨rfl, by simp [ObjcObjectDestruct]⟩

@[simp] theorem StructFieldInfo.name_mk (n t : List Char) (o s a : Nat) (b : Bool)
    (sub : List StructFieldInfo) : (StructFieldInfo.mk n t o s a b sub).name = n := rfl

@[simp] theorem StructFieldInfo.typeEncoding_mk (n t : List Char) (o s a : Nat) (b : Bool)
    (sub : List StructFieldInfo) : (StructFieldInfo.mk n t o s a b sub).typeEncoding = t := rfl

@[simp] theorem StructFieldInfo.offset_mk (n t : List Char) (o s a : Nat) (b : Bool)
    (sub : List StructFieldInfo) : (StructFieldInfo.mk n t o s a b sub).offset = o := rfl

@[simp] theorem StructFieldInfo.size_mk (n t : List Char) (o s a : Nat) (b : Bool)
    (sub : List StructFieldInfo) : (StructFieldInfo.mk n t o s a b sub).size = s := rfl

@[simp] theorem StructFieldInfo.alignment_mk (n t : List Char) (o s a : Nat) (b : Bool)
    (sub : List StructFieldInfo) : (StructFieldInfo.mk n t o s a b sub).alignment = a := rfl

@[simp] theorem StructFieldInfo.isStruct_mk (n t : List Char) (o s a : Nat) (b : Bool)
    (sub : List StructFieldInfo) : (StructFieldInfo.mk n t o s a b sub).isStruct = b := rfl

@[simp] theorem StructFieldInfo.subfields_mk (n t : List Char) (o s a : Nat) (b : Bool)
    (sub : List StructFieldInfo) : (StructFieldInfo.mk n t o s a b sub).subfields = sub := rfl

theorem alignUp_ge (off a : Nat) : off ≤ alignUp off a := by
  unfold alignUp
  rcases Nat.eq_zero_or_pos a with h | h
  · simp [h]
  · rw [if_neg (by omega)]
    have := Nat.mod_lt (off + a - 1) h
    omega

theorem computeOffsetsLevel_forwardPass (sub : List StructFieldInfo → List StructFieldInfo) :
    ∀ (fields : List StructFieldInfo) (cur : Nat),
      offsetsForwardPass cur (computeOffsetsLevel sub cur fields) := by
  intro fields
  induction fields with
  | nil => intro cur; trivial
  | cons f rest ih =>
    intro cur
    exact ⟨rfl, ih (alignUp cur f.alignment + f.size)⟩

theorem sizeAligns_computeOffsetsLevel (sub : List StructFieldInfo → List StructFieldInfo) :
    ∀ (fields : List StructFieldInfo) (cur : Nat),
      fieldSizeAligns (computeOffsetsLevel sub cur fields) = fieldSizeAligns fields := by
  intro fields
  induction fields with
  | nil => intro cur; rfl
  | cons f rest ih =>
    intro cur
    simp only [computeOffsetsLevel, fieldSizeAligns, List.map_cons,
      StructFieldInfo.size_mk, StructFieldInfo.alignment_mk]
    have := ih (alignUp cur f.alignment + f.size)
    simp only [fieldSizeAligns] at this
    rw [this]

theorem sizeAligns_ComputeFieldOffsets :
    ∀ (d : Nat) (fields : List StructFieldInfo),
      fieldSizeAligns (ComputeFieldOffsets d fields) = fieldSizeAligns fields := by
  intro d fields
  cases d with
  | zero => rfl
  | succ d => exact sizeAligns_computeOffsetsLevel (ComputeFieldOffsets d) fields 0

theorem sizeAligns_renameFields :
    ∀ (fields : List StructFieldInfo) (names : List (List Char)),
      fieldSizeAligns (renameFields fields names) = fieldSizeAligns fields := by
  intro fields
  induction fields with
  | nil => intro names; cases names <;> rfl
  | cons f rest ih =>
    intro names
    cases names with
    | nil => rfl
    | cons n ns =>
      simp only [renameFields, fieldSizeAligns, List.map_cons,
        StructFieldInfo.size_mk, StructFieldInfo.alignment_mk]
      have := ih ns
      simp only [fieldSizeAligns] at this
      rw [this]

theorem sizeAligns_applyKnownNamesTop (structName : List Char)
    (fields : List StructFieldInfo) :
    fieldSizeAligns (applyKnownNamesTop structName fields) = fieldSizeAligns fields := by
  cases fields with
  | nil => rfl
  | cons f rest =>
    unfold applyKnownNamesTop
    dsimp only
    repeat' split
    all_goals first
      | exact sizeAligns_renameFields (f :: rest) _
      | rfl

theorem sizeAligns_applyNestedOne (f : StructFieldInfo) :
    (applyNestedKnownNamesOne f).size = f.size ∧
    (applyNestedKnownNamesOne f).alignment = f.alignment := by
  obtain ⟨n, t, o, s, a, b, sub⟩ := f
  cases sub with
  | nil => exact ⟨rfl, rfl⟩
  | cons sf rest =>
    unfold applyNestedKnownNamesOne
    dsimp only [StructFieldInfo.subfields_mk]
    repeat' split
    all_goals exact ⟨rfl, rfl⟩

theorem sizeAligns_applyNestedKnownNames (fields : List StructFieldInfo) :
    fieldSizeAligns (applyNestedKnownNames fields) = fieldSizeAligns fields := by
  unfold applyNestedKnownNames fieldSizeAligns
  rw [List.map_map]
  apply List.map_congr_left
  intro f _
  have h := sizeAligns_applyNestedOne f
  simp only [Function.comp_apply, h.1, h.2]

theorem sumFieldSizes_eq_of_sizeAligns (f1 f2 : List StructFieldInfo)
    (h : fieldSizeAligns f1 = fieldSizeAligns f2) : sumFieldSizes f1 = sumFieldSizes f2 := by
  have h1 : ∀ l : List StructFieldInfo, l.map StructFieldInfo.size =
      (fieldSizeAligns l).map Prod.fst := by
    intro l
    unfold fieldSizeAligns
    rw [List.map_map]
    rfl
  unfold sumFieldSizes
  rw [h1, h1, h]

theorem foldl_layout_ge (fields : List StructFieldInfo) :
    ∀ acc : Nat × Nat,
      acc.1 + sumFieldSizes fields ≤
        (fields.foldl (fun acc f =>
          (alignUp acc.1 f.alignment + f.size, max acc.2 (max f.alignment 1))) acc).1 := by
  induction fields with
  | nil => intro acc; simp [sumFieldSizes]
  | cons f rest ih =>
    intro acc
    simp only [List.foldl_cons]
    have h1 := ih (alignUp acc.1 f.alignment + f.size, max acc.2 (max f.alignment 1))
    have h2 := alignUp_ge acc.1 f.alignment
    have h3 : sumFieldSizes (f :: rest) = f.size + sumFieldSizes rest := by
      simp [sumFieldSizes]
    omega

theorem sumFieldSizes_le_sizeAlign (fields : List StructFieldInfo) :
    sumFieldSizes fields ≤ (sizeAlignOfFields fields).1 := by
  simp only [sizeAlignOfFields]
  have h1 := foldl_layout_ge fields (0, 1)
  have h2 := alignUp_ge
    ((fields.foldl (fun acc f =>
      (alignUp acc.1 f.alignment + f.size, max acc.2 (max f.alignment 1))) (0, 1)).1)
    ((fields.foldl (fun acc f =>
      (alignUp acc.1 f.alignment + f.size, max acc.2 (max f.alignment 1))) (0, 1)).2)
  simp only [Nat.zero_add] at h1
  omega

/-- Claim C5: for every struct encoding the parser accepts, field offsets
are computed deterministically by a forward pass that rounds the
running offset up to each field's alignment before assigning it, the
same pass being applied recursively to nested subfields; and the
resulting `totalSize` equals the struct size the platform runtime
reports for the whole encoding, which the field sizes plus padding fill
exactly (the sizes never exceed it). -/
theorem struct_offsets_and_totalSize (enc : List Char)
    (hacc : (ParseStructEncodingWithNames enc).fields.isEmpty = false) :
    (∀ (sub : List StructFieldInfo → List StructFieldInfo) (fields : List StructFieldInfo)
        (cur : Nat), offsetsForwardPass cur (computeOffsetsLevel sub cur fields)) ∧
    (∀ (d : Nat) (fields : List StructFieldInfo),
      ComputeFieldOffsets (d + 1) fields = computeOffsetsLevel (ComputeFieldOffsets d) 0 fields) ∧
    (ParseStructEncodingWithNames enc).totalSize = (modelNSGetSizeAndAlignment enc).1 ∧
    sumFieldSizes (ParseStructEncodingWithNames enc).fields ≤
      (ParseStructEncodingWithNames enc).totalSize := by
  refine ⟨fun sub fields cur => computeOffsetsLevel_forwardPass sub fields cur,
    fun d fields => rfl, ?_, ?_⟩
  · cases hfs : (ParseStructEncodingHeader enc).fieldsStart with
    | none =>
      exfalso
      simp only [ParseStructEncodingWithNames, hfs] at hacc
      split at hacc <;> simp at hacc
    | some fs => simp only [ParseStructEncodingWithNames, hfs]
  · cases hfs : (ParseStructEncodingHeader enc).fieldsStart with
    | none =>
      exfalso
      simp only [ParseStructEncodingWithNames, hfs] at hacc
      split at hacc <;> simp at hacc
    | some fs =>
      rcases enc with _ | ⟨c, rest⟩
      · exact absurd hfs (by simp [ParseStructEncodingHeader])
      by_cases hc : c = braceOpen
      · subst hc
        have hnq : braceOpen ∉ typeQualifiers := by decide
        have hsimp2 : SimplifyTypeEncoding (braceOpen :: rest) = braceOpen :: rest := by
          simp [SimplifyTypeEncoding, List.dropWhile_cons, hnq]
        simp only [ParseStructEncodingWithNames, hfs]
        simp only [modelNSGetSizeAndAlignment, hsimp2]
        rw [if_pos (show headCharD (braceOpen :: rest) = braceOpen from rfl), hfs]
        have hpres : fieldSizeAligns
            (ComputeFieldOffsets ((braceOpen :: rest).length + 1)
              (applyNestedKnownNames (applyKnownNamesTop
                (ParseStructEncodingHeader (braceOpen :: rest)).name
                (parseStructFieldsAux (fs.length + 1) 0 fs)))) =
            fieldSizeAligns (parseStructFieldsAux (fs.length + 1) 0 fs) := by
          rw [sizeAligns_ComputeFieldOffsets, sizeAligns_applyNestedKnownNames,
            sizeAligns_applyKnownNamesTop]
        rw [sumFieldSizes_eq_of_sizeAligns _ _ hpres]
        exact sumFieldSizes_le_sizeAlign _
      · exfalso
        rw [show ParseStructEncodingHeader (c :: rest) =
          { name := [], fieldsStart := none, empty := false } from by
            unfold ParseStructEncodingHeader
            dsimp only
            rw [if_neg hc]] at hfs
        simp at hfs

/-- Witness for the layout theorem at the CGPoint encoding. -/
theorem struct_offsets_and_totalSize_witness :
    ((ParseStructEncodingWithNames "\x7bCGPoint=dd\x7d".toList).fields.isEmpty = false) ∧
    (ParseStructEncodingWithNames "\x7bCGPoint=dd\x7d".toList).totalSize =
      (modelNSGetSizeAndAlignment "\x7bCGPoint=dd\x7d".toList).1 ∧
    sumFieldSizes (ParseStructEncodingWithNames "\x7bCGPoint=dd\x7d".toList).fields ≤
      (ParseStructEncodingWithNames "\x7bCGPoint=dd\x7d".toList).totalSize :=
  ⟨by decide, (struct_offsets_and_totalSize _ (by decide)).2.2.1,
    (struct_offsets_and_totalSize _ (by decide)).2.2.2⟩

-- MARK: Claim C6 — field-name priority
/-- Claim C6 counterexample: in the encoding
`{CGPoint="fieldA"d"fieldB"d}` both fields carry quoted names, yet the
parser returns the table names `x`, `y`: a quoted name beginning with
`field` is overwritten by the well-known-struct table, so the quoted
name does not take priority as claimed. -/
theorem struct_field_naming_counterexample :
    fieldNames (ParseStructEncodingWithNames
        "\x7bCGPoint=\x22fieldA\x22d\x22fieldB\x22d\x7d".toList).fields =
      ["x".toList, "y".toList] ∧
    ¬ fieldNames (ParseStructEncodingWithNames
        "\x7bCGPoint=\x22fieldA\x22d\x22fieldB\x22d\x7d".toList).fields =
      ["fieldA".toList, "fieldB".toList] := by
  constructor
  · decide
  · decide

theorem names_computeOffsetsLevel (sub : List StructFieldInfo → List StructFieldInfo) :
    ∀ (fields : List StructFieldInfo) (cur : Nat),
      fieldNames (computeOffsetsLevel sub cur fields) = fieldNames fields := by
  intro fields
  induction fields with
  | nil => intro cur; rfl
  | cons f rest ih =>
    intro cur
    simp only [computeOffsetsLevel, fieldNames, List.map_cons, StructFieldInfo.name_mk]
    have := ih (alignUp cur f.alignment + f.size)
    simp only [fieldNames] at this
    rw [this]

theorem names_ComputeFieldOffsets :
    ∀ (d : Nat) (fields : List StructFieldInfo),
      fieldNames (ComputeFieldOffsets d fields) = fieldNames fields := by
  intro d fields
  cases d with
  | zero => rfl
  | succ d => exact names_computeOffsetsLevel (ComputeFieldOffsets d) fields 0

/-- Claim C6 as amended: during parsing each field's name is the quoted
name when one is present and the positional `field<i>` otherwise;
afterwards, when the first field's resulting name begins with `field`
and the struct's name is in the built-in table with exactly as many
names as fields, every field name is replaced by the table entry (this
can overwrite quoted names that begin with `field`); the same
replacement is applied one level deep to the subfields of nested struct
fields; offset computation keeps all names.  Concretely: an unnamed
known struct gets the table names, an unnamed unknown struct keeps
positional names, and quoted names not beginning with `field` survive
even for a known struct. -/
theorem struct_field_naming_amended :
    (∀ (idx : Nat) (c : Char) (rest : List Char), ¬ c = dquoteChar →
      (parseFieldName idx (c :: rest)).1 = "field".toList ++ (Nat.repr idx).toList) ∧
    (∀ (idx : Nat) (rest : List Char),
      (parseFieldName idx (dquoteChar :: rest)).1 = rest.takeWhile (· ≠ dquoteChar)) ∧
    (∀ (n : List Char) (f : StructFieldInfo) (fs : List StructFieldInfo)
        (known : List (List Char)),
      f.name.take 5 = "field".toList → LookupKnownFieldNames n = some known →
      known.length = (f :: fs).length →
      applyKnownNamesTop n (f :: fs) = renameFields (f :: fs) known) ∧
    (∀ (n : List Char) (f : StructFieldInfo) (fs : List StructFieldInfo),
      ¬ f.name.take 5 = "field".toList → applyKnownNamesTop n (f :: fs) = f :: fs) ∧
    (∀ (n : List Char) (f : StructFieldInfo) (fs : List StructFieldInfo),
      LookupKnownFieldNames n = none → applyKnownNamesTop n (f :: fs) = f :: fs) ∧
    (∀ (n : List Char) (f : StructFieldInfo) (fs : List StructFieldInfo)
        (known : List (List Char)),
      LookupKnownFieldNames n = some known → ¬ known.length = (f :: fs).length →
      applyKnownNamesTop n (f :: fs) = f :: fs) ∧
    (∀ fields : List StructFieldInfo,
      applyNestedKnownNames fields = fields.map applyNestedKnownNamesOne) ∧
    (∀ (enc fs : List Char), (ParseStructEncodingHeader enc).fieldsStart = some fs →
      (ParseStructEncodingWithNames enc).fields =
        ComputeFieldOffsets (enc.length + 1)
          (applyNestedKnownNames (applyKnownNamesTop (ParseStructEncodingHeader enc).name
            (parseStructFieldsAux (fs.length + 1) 0 fs)))) ∧
    (∀ (d : Nat) (fields : List StructFieldInfo),
      fieldNames (ComputeFieldOffsets d fields) = fieldNames fields) ∧
    fieldNames (ParseStructEncodingWithNames "\x7bCGPoint=dd\x7d".toList).fields =
      ["x".toList, "y".toList] ∧
    fieldNames (ParseStructEncodingWithNames "\x7bZoo=id\x7d".toList).fields =
      ["field0".toList, "field1".toList] ∧
    fieldNames (ParseStructEncodingWithNames
        "\x7bCGPoint=\x22a\x22d\x22b\x22d\x7d".toList).fields =
      ["a".toList, "b".toList] := by
  refine ⟨?_, ?_, ?_, ?_, ?_, ?_, fun fields => rfl, ?_, names_ComputeFieldOffsets,
    by decide, by decide, by decide⟩
  · intro idx c rest hc
    unfold parseFieldName
    dsimp only
    rw [if_neg hc]
  · intro idx rest
    unfold parseFieldName
    dsimp only
    rw [if_pos rfl]
  · intro n f fs known hname hlk hlen
    unfold applyKnownNamesTop
    dsimp only
    rw [if_pos hname, hlk]
    dsimp only
    rw [if_pos hlen]
  · intro n f fs hname
    unfold applyKnownNamesTop
    dsimp only
    rw [if_neg hname]
  · intro n f fs hlk
    unfold applyKnownNamesTop
    dsimp only
    rw [hlk]
    split <;> rfl
  · intro n f fs known hlk hlen
    unfold applyKnownNamesTop
    dsimp only
    rw [hlk]
    dsimp only
    rw [if_neg hlen, ite_self]
  · intro enc fs hfs
    simp only [ParseStructEncodingWithNames, hfs]

/-- Witness for the amended naming theorem: positional naming at index 7,
and the phase decomposition at the unknown struct `{Zoo=id}`. -/
theorem struct_field_naming_amended_witness :
    ((¬ 'd' = dquoteChar) ∧
      (parseFieldName 7 ['d']).1 = "field".toList ++ (Nat.repr 7).toList) ∧
    ((ParseStructEncodingHeader "\x7bZoo=id\x7d".toList).fieldsStart =
        some ("id\x7d".toList) ∧
      (ParseStructEncodingWithNames "\x7bZoo=id\x7d".toList).fields =
        ComputeFieldOffsets ("\x7bZoo=id\x7d".toList.length + 1)
          (applyNestedKnownNames (applyKnownNamesTop
            (ParseStructEncodingHeader "\x7bZoo=id\x7d".toList).name
            (parseStructFieldsAux ("id\x7d".toList.length + 1) 0 ("id\x7d".toList))))) := by
  have h := struct_field_naming_amended
  exact ⟨⟨by decide, h.1 7 'd' [] (by decide)⟩,
    ⟨by decide, h.2.2.2.2.2.2.2.1 _ _ (by decide)⟩⟩

-- MARK: Claim C7 — memoized parsing
/-- Claim C7 (the functional part; the source cache is not mutex-guarded,
see the forced status): with the cache state made explicit, the cached
parse entry point returns the parse of the encoding in every
well-formed cache state — so the value on a cache hit is identical to
the value computed on the initial miss — the well-formedness is
preserved, and repeated calls return equal `ParsedStruct` values. -/
theorem struct_parse_memoized (cache : List (List Char × ParsedStructType))
    (enc : List Char) (hwf : CacheWF cache) :
    (GetOrParseStructEncoding cache enc).1 = ParseStructEncodingWithNames enc ∧
    CacheWF (GetOrParseStructEncoding cache enc).2 ∧
    (GetOrParseStructEncoding (GetOrParseStructEncoding cache enc).2 enc).1 =
      (GetOrParseStructEncoding cache enc).1 := by
  have h1 : ∀ c, CacheWF c →
      (GetOrParseStructEncoding c enc).1 = ParseStructEncodingWithNames enc := by
    intro c hc
    unfold GetOrParseStructEncoding
    cases hfind : c.find? (fun p => p.1 = enc) with
    | none => rfl
    | some p =>
      have hmem := List.mem_of_find?_eq_some hfind
      have hp := List.find?_some hfind
      simp only [decide_eq_true_eq] at hp
      dsimp only
      rw [hc p hmem, hp]
  have h2 : CacheWF (GetOrParseStructEncoding cache enc).2 := by
    unfold GetOrParseStructEncoding
    cases hfind : cache.find? (fun p => p.1 = enc) with
    | none =>
      dsimp only
      intro p hp
      rcases List.mem_append.mp hp with h | h
      · exact hwf p h
      · simp only [List.mem_singleton] at h
        rw [h]
    | some p =>
      dsimp only
      exact hwf
  exact ⟨h1 cache hwf, h2, by rw [h1 _ h2, h1 cache hwf]⟩

/-- Witness for the memoization theorem: an empty cache and the CGPoint
encoding. -/
theorem struct_parse_memoized_witness :
    CacheWF [] ∧
    (GetOrParseStructEncoding [] "\x7bCGPoint=dd\x7d".toList).1 =
      ParseStructEncodingWithNames "\x7bCGPoint=dd\x7d".toList := by
  have hwf : CacheWF [] := fun p hp => absurd hp (List.not_mem_nil p)
  exact ⟨hwf, (struct_parse_memoized [] "\x7bCGPoint=dd\x7d".toList hwf).1⟩

theorem readMem_writeMem_at (m : ByteMem) (off : Nat) (v : MachineVal) (sz : Nat)
    (hs : v.size = sz) (hpos : 0 < sz) :
    readMem (writeMem m off v) off sz = some v := by
  subst hs
  exact readMem_writeMem m off v hpos

theorem point_roundTrip (enc : List Char)
    (h : ExtractStructName enc = "CGPoint".toList ∨
      ExtractStructName enc = "NSPoint".toList) (x y : Dyadic) :
    structRoundTrip (mkCGPointJS x y) enc = some (mkCGPointJS x y) := by
  have hp : PackJSValueAsStruct (mkCGPointJS x y) enc =
      some (writeMem (writeMem emptyMem 0 (.floatVal 8 x)) 8 (.floatVal 8 y)) := by
    unfold PackJSValueAsStruct
    rcases h with h | h <;> rw [h] <;> rfl
  have hd : UnpackStructToJSValue
      (writeMem (writeMem emptyMem 0 (.floatVal 8 x)) 8 (.floatVal 8 y)) enc =
      TryUnpackCGPoint (writeMem (writeMem emptyMem 0 (.floatVal 8 x)) 8 (.floatVal 8 y)) := by
    unfold UnpackStructToJSValue
    rcases h with h | h <;> rw [h] <;> rfl
  unfold structRoundTrip
  rw [hp, Option.some_bind, hd]
  unfold TryUnpackCGPoint
  rw [readMem_writeMem_disjoint _ 0 8 8 _ (by norm_num) (Or.inl (by norm_num)),
    readMem_writeMem_at emptyMem 0 _ 8 (by rfl) (by norm_num),
    readMem_writeMem_at _ 8 _ 8 (by rfl) (by norm_num)]
  rfl

theorem size_roundTrip (enc : List Char)
    (h : ExtractStructName enc = "CGSize".toList ∨
      ExtractStructName enc = "NSSize".toList) (w h2 : Dyadic) :
    structRoundTrip (mkCGSizeJS w h2) enc = some (mkCGSizeJS w h2) := by
  have hp : PackJSValueAsStruct (mkCGSizeJS w h2) enc =
      some (writeMem (writeMem emptyMem 0 (.floatVal 8 w)) 8 (.floatVal 8 h2)) := by
    unfold PackJSValueAsStruct
    rcases h with h | h <;> rw [h] <;> rfl
  have hd : UnpackStructToJSValue
      (writeMem (writeMem emptyMem 0 (.floatVal 8 w)) 8 (.floatVal 8 h2)) enc =
      TryUnpackCGSize (writeMem (writeMem emptyMem 0 (.floatVal 8 w)) 8 (.floatVal 8 h2)) := by
    unfold UnpackStructToJSValue
    rcases h with h | h <;> rw [h] <;> rfl
  unfold structRoundTrip
  rw [hp, Option.some_bind, hd]
  unfold TryUnpackCGSize
  rw [readMem_writeMem_disjoint _ 0 8 8 _ (by norm_num) (Or.inl (by norm_num)),
    readMem_writeMem_at emptyMem 0 _ 8 (by rfl) (by norm_num),
    readMem_writeMem_at _ 8 _ 8 (by rfl) (by norm_num)]
  rfl

theorem rect_roundTrip (enc : List Char)
    (h : ExtractStructName enc = "CGRect".toList ∨
      ExtractStructName enc = "NSRect".toList) (x y w h2 : Dyadic) :
    structRoundTrip (mkCGRectJS x y w h2) enc = some (mkCGRectJS x y w h2) := by
  have hp : PackJSValueAsStruct (mkCGRectJS x y w h2) enc =
      some (writeMem (writeMem (writeMem (writeMem emptyMem 0 (.floatVal 8 x))
        8 (.floatVal 8 y)) 16 (.floatVal 8 w)) 24 (.floatVal 8 h2)) := by
    unfold PackJSValueAsStruct
    rcases h with h | h <;> rw [h] <;> rfl
  have hd : UnpackStructToJSValue
      (writeMem (writeMem (writeMem (writeMem emptyMem 0 (.floatVal 8 x))
        8 (.floatVal 8 y)) 16 (.floatVal 8 w)) 24 (.floatVal 8 h2)) enc =
      TryUnpackCGRect (writeMem (writeMem (writeMem (writeMem emptyMem 0 (.floatVal 8 x))
        8 (.floatVal 8 y)) 16 (.floatVal 8 w)) 24 (.floatVal 8 h2)) := by
    unfold UnpackStructToJSValue
    rcases h with h | h <;> rw [h] <;> rfl
  unfold structRoundTrip
  rw [hp, Option.some_bind, hd]
  unfold TryUnpackCGRect
  rw [readMem_writeMem_disjoint _ 0 8 24 _ (by norm_num) (Or.inl (by norm_num)),
    readMem_writeMem_disjoint _ 0 8 16 _ (by norm_num) (Or.inl (by norm_num)),
    readMem_writeMem_disjoint _ 0 8 8 _ (by norm_num) (Or.inl (by norm_num)),
    readMem_writeMem_at emptyMem 0 _ 8 (by rfl) (by norm_num),
    readMem_writeMem_disjoint _ 8 8 24 _ (by norm_num) (Or.inl (by norm_num)),
    readMem_writeMem_disjoint _ 8 8 16 _ (by norm_num) (Or.inl (by norm_num)),
    readMem_writeMem_at _ 8 _ 8 (by rfl) (by norm_num),
    readMem_writeMem_disjoint _ 16 8 24 _ (by norm_num) (Or.inl (by norm_num)),
    readMem_writeMem_at _ 16 _ 8 (by rfl) (by norm_num),
    readMem_writeMem_at _ 24 _ 8 (by rfl) (by norm_num)]
  rfl

theorem range_roundTrip (enc : List Char)
    (h : ExtractStructName enc = "_NSRange".toList ∨
      ExtractStructName enc = "NSRange".toList) (loc len : Int)
    (hl1 : 0 ≤ loc) (hl2 : loc ≤ 2 ^ 53) (hn1 : 0 ≤ len) (hn2 : len ≤ 2 ^ 53) :
    structRoundTrip (mkNSRangeJS loc len) enc = some (mkNSRangeJS loc len) := by
  have hji : ∀ v : Int, 0 ≤ v → v ≤ 2 ^ 53 → jsInt64 (.num (Dyadic.ofInt v)) = some v := by
    intro v h1 h2
    have hv : wrapSigned 8 (Dyadic.truncToInt ⟨v, 0⟩) = v := by
      rw [truncToInt_ofInt]
      unfold wrapSigned
      omega
    simp [jsInt64, jsDouble, Dyadic.ofInt, hv]
  have hwu : ∀ v : Int, 0 ≤ v → v ≤ 2 ^ 53 → wrapUnsigned 8 v = v := by
    intro v h1 h2
    unfold wrapUnsigned
    omega
  have hpack : TryPackNSRange (mkNSRangeJS loc len) =
      some (writeMem (writeMem emptyMem 0 (.intVal 8 loc)) 8 (.intVal 8 len)) := by
    unfold TryPackNSRange
    rw [show (mkNSRangeJS loc len).getProp "location".toList =
      some (.num (Dyadic.ofInt loc)) from rfl]
    rw [show (mkNSRangeJS loc len).getProp "length".toList =
      some (.num (Dyadic.ofInt len)) from rfl]
    dsimp only
    rw [hji loc hl1 hl2, hji len hn1 hn2]
    dsimp only [Option.some_bind, Option.bind_some, Option.map_some']
    rw [hwu loc hl1 hl2, hwu len hn1 hn2]
  have hp : PackJSValueAsStruct (mkNSRangeJS loc len) enc =
      some (writeMem (writeMem emptyMem 0 (.intVal 8 loc)) 8 (.intVal 8 len)) := by
    unfold PackJSValueAsStruct
    rcases h with h | h <;> rw [h] <;>
      simpa using hpack
  have hd : UnpackStructToJSValue
      (writeMem (writeMem emptyMem 0 (.intVal 8 loc)) 8 (.intVal 8 len)) enc =
      TryUnpackNSRange (writeMem (writeMem emptyMem 0 (.intVal 8 loc)) 8 (.intVal 8 len)) := by
    unfold UnpackStructToJSValue
    rcases h with h | h <;> rw [h] <;> rfl
  unfold structRoundTrip
  rw [hp, Option.some_bind, hd]
  unfold TryUnpackNSRange
  rw [readMem_writeMem_disjoint _ 0 8 8 _ (by norm_num) (Or.inl (by norm_num)),
    readMem_writeMem_at emptyMem 0 _ 8 (by rfl) (by norm_num),
    readMem_writeMem_at _ 8 _ 8 (by rfl) (by norm_num)]
  dsimp only [Option.some_bind]
  rw [hwu loc hl1 hl2, hwu len hn1 hn2,
    doubleOfInt_small loc (by omega) hl2, doubleOfInt_small len (by omega) hn2]
  rfl

/-- Claim C3: packing a JS object into a byte buffer and unpacking the
buffer back yields an equal JS object — universally in the field values
for the well-known Apple structs CGPoint/NSPoint, CGSize/NSSize,
CGRect/NSRect and NSRange/_NSRange, which take the specialized fast
paths (range components within the double-exact `0 … 2 ^ 53`), and for
the synthetic nested struct `{Foo=i{Bar=dq}}`, which takes the generic
recursive walker. -/
theorem struct_roundtrip_wellknown_and_nested :
    (∀ enc, (ExtractStructName enc = "CGPoint".toList ∨
        ExtractStructName enc = "NSPoint".toList) → ∀ x y : Dyadic,
      structRoundTrip (mkCGPointJS x y) enc = some (mkCGPointJS x y)) ∧
    (∀ enc, (ExtractStructName enc = "CGSize".toList ∨
        ExtractStructName enc = "NSSize".toList) → ∀ w h : Dyadic,
      structRoundTrip (mkCGSizeJS w h) enc = some (mkCGSizeJS w h)) ∧
    (∀ enc, (ExtractStructName enc = "CGRect".toList ∨
        ExtractStructName enc = "NSRect".toList) → ∀ x y w h : Dyadic,
      structRoundTrip (mkCGRectJS x y w h) enc = some (mkCGRectJS x y w h)) ∧
    (∀ enc, (ExtractStructName enc = "_NSRange".toList ∨
        ExtractStructName enc = "NSRange".toList) → ∀ loc len : Int,
      0 ≤ loc → loc ≤ 2 ^ 53 → 0 ≤ len → len ≤ 2 ^ 53 →
      structRoundTrip (mkNSRangeJS loc len) enc = some (mkNSRangeJS loc len)) ∧
    structRoundTrip
        (.obj [("field0".toList, .num ⟨7, 0⟩),
          ("field1".toList,
            .obj [("field0".toList, .num ⟨5, -1⟩), ("field1".toList, .num ⟨99, 0⟩)])])
        "\x7bFoo=i\x7bBar=dq\x7d\x7d".toList =
      some (.obj [("field0".toList, .num ⟨7, 0⟩),
        ("field1".toList,
          .obj [("field0".toList, .num ⟨5, -1⟩), ("field1".toList, .num ⟨99, 0⟩)])]) :=
  ⟨point_roundTrip, size_roundTrip, rect_roundTrip,
    fun enc h loc len h1 h2 h3 h4 => range_roundTrip enc h loc len h1 h2 h3 h4, rfl⟩

/-- Witness for the struct round-trip theorem: a CGRect with concrete
components and an NSRange at (2, 5). -/
theorem struct_roundtrip_wellknown_and_nested_witness :
    ((ExtractStructName "\x7bCGRect=\x7bCGPoint=dd\x7d\x7bCGSize=dd\x7d\x7d".toList =
        "CGRect".toList ∨
      ExtractStructName "\x7bCGRect=\x7bCGPoint=dd\x7d\x7bCGSize=dd\x7d\x7d".toList =
        "NSRect".toList) ∧
      structRoundTrip (mkCGRectJS ⟨1, 0⟩ ⟨2, 0⟩ ⟨3, 0⟩ ⟨4, 0⟩)
          "\x7bCGRect=\x7bCGPoint=dd\x7d\x7bCGSize=dd\x7d\x7d".toList =
        some (mkCGRectJS ⟨1, 0⟩ ⟨2, 0⟩ ⟨3, 0⟩ ⟨4, 0⟩)) ∧
    structRoundTrip (mkNSRangeJS 2 5) "\x7b_NSRange=QQ\x7d".toList =
      some (mkNSRangeJS 2 5) := by
  have h := struct_roundtrip_wellknown_and_nested
  exact ⟨⟨Or.inl (by decide),
    h.2.2.1 _ (Or.inl (by decide)) ⟨1, 0⟩ ⟨2, 0⟩ ⟨3, 0⟩ ⟨4, 0⟩⟩,
    h.2.2.2.1 _ (Or.inl (by decide)) 2 5 (by decide) (by decide) (by decide) (by decide)⟩

/-- Claim C10: after `store(key, sel, enc)` the cache matches `(key, sel)`;
the stored `typeEncoding` equals `enc` exactly when `enc` has at most
127 characters, and a longer encoding is silently truncated to its
first 127 characters (so a later hit yields a shortened encoding);
`invalidate()` makes `matches` false for every pair. -/
theorem forwarding_cache_store_truncation :
    (∀ (c : ForwardingPipelineCache) (k : Nat) (sel e : List Char),
      (c.store k sel e).matchesKey k sel = true) ∧
    (∀ (c : ForwardingPipelineCache) (k : Nat) (sel e : List Char),
      e.length ≤ 127 → (c.store k sel e).typeEncoding = e) ∧
    (∀ (c : ForwardingPipelineCache) (k : Nat) (sel e : List Char),
      127 < e.length → (c.store k sel e).typeEncoding = e.take 127 ∧
        (c.store k sel e).typeEncoding ≠ e) ∧
    (∀ (c : ForwardingPipelineCache) (k : Nat) (sel : List Char),
      c.invalidate.matchesKey k sel = false) := by
  refine ⟨?_, ?_, ?_, ?_⟩
  · intro c k sel e
    simp [ForwardingPipelineCache.store, ForwardingPipelineCache.matchesKey]
  · intro c k sel e h
    simp [ForwardingPipelineCache.store, List.take_of_length_le h]
  · intro c k sel e h
    refine ⟨rfl, ?_⟩
    intro heq
    have hlen : ((c.store k sel e).typeEncoding).length = e.length := by rw [heq]
    simp only [ForwardingPipelineCache.store, List.length_take] at hlen
    omega
  · intro c k sel
    simp [ForwardingPipelineCache.invalidate, ForwardingPipelineCache.matchesKey]

/-- Witness for the forwarding-cache theorem: a 130-character encoding is
truncated, a 3-character one is kept, and invalidation kills matching. -/
theorem forwarding_cache_store_truncation_witness :
    (ForwardingPipelineCache.store ⟨0, [], [], false⟩ 1 "foo".toList
      (List.replicate 130 'q')).matchesKey 1 "foo".toList = true ∧
    (127 ≤ 127 ∧ (ForwardingPipelineCache.store ⟨0, [], [], false⟩ 1 "foo".toList
      "v@:".toList).typeEncoding = "v@:".toList) ∧
    (127 < (List.replicate 130 'q').length ∧
      (ForwardingPipelineCache.store ⟨0, [], [], false⟩ 1 "foo".toList
        (List.replicate 130 'q')).typeEncoding ≠ List.replicate 130 'q') ∧
    (ForwardingPipelineCache.invalidate ⟨2, "s".toList, "v".toList, true⟩).matchesKey
      2 "s".toList = false := by
  have h := forwarding_cache_store_truncation
  exact ⟨h.1 ⟨0, [], [], false⟩ 1 "foo".toList (List.replicate 130 'q'),
    ⟨by omega, h.2.1 ⟨0, [], [], false⟩ 1 "foo".toList "v@:".toList (by decide)⟩,
    ⟨by rw [List.length_replicate]; omega, (h.2.2.1 ⟨0, [], [], false⟩ 1 "foo".toList
      (List.replicate 130 'q') (by rw [List.length_replicate]; omega)).2⟩,
    h.2.2.2 ⟨2, "s".toList, "v".toList, true⟩ 2 "s".toList⟩

/-- Claim C8 counterexample: on the struct-field packing path the
marshaller does not write the JS string's character-data pointer for
type code `*` — it always writes a null pointer, and reading the field
back yields `null`, not the string. -/
theorem cstring_struct_path_counterexample :
    (WriteLeafValueToBuffer (.str "hi".toList) ['*'] emptyMem 0).bind
      (fun m => ReadLeafValueFromBuffer ['*'] m 0) = some JSValue.null ∧
    some JSValue.null ≠ some (JSValue.str "hi".toList) :=
  ⟨rfl, fun h => JSValue.noConfusion (Option.some.inj h)⟩

/-- Claim C8 as amended: for type code `*` the marshaller accepts a JS
string and writes its character-data pointer on the FFI
argument-extraction path (`ExtractJSArgumentToBuffer`), refusing
non-strings, with the pointer's lifetime not retained beyond the call
frame; on the struct-field packing path (`WriteLeafToBufferVisitor`)
the marshaller cannot manage that lifetime and always writes a null
pointer instead. -/
theorem cstring_marshalling_amended :
    (∀ (s : List Char) (m : ByteMem) (off : Nat),
      WriteLeafValueToBuffer (.str s) ['*'] m off =
        some (writeMem m off (.ptrVal .null))) ∧
    (∀ (js : JSValue) (m : ByteMem) (off : Nat),
      WriteLeafValueToBuffer js ['*'] m off = some (writeMem m off (.ptrVal .null))) ∧
    (∀ (s : List Char) (m : ByteMem) (off : Nat),
      ExtractJSArgumentToBuffer (.str s) ['*'] m off =
        some (writeMem m off (.ptrVal (.strData s)))) ∧
    (∀ (js : JSValue) (m : ByteMem) (off : Nat), (∀ s, js ≠ .str s) →
      ExtractJSArgumentToBuffer js ['*'] m off = none) := by
  refine ⟨fun s m off => rfl, fun js m off => rfl, fun s m off => rfl, ?_⟩
  intro js m off h
  cases js with
  | str s => exact absurd rfl (h s)
  | num v => rfl
  | jsBool b => rfl
  | null => rfl
  | undefined => rfl
  | obj props => rfl
  | arr elems => rfl
  | wrapped o => rfl
  | buffer b => rfl

/-- Witness for the amended C-string theorem: the string `hi` at offset 0,
and a number being refused on the extraction path. -/
theorem cstring_marshalling_amended_witness :
    ExtractJSArgumentToBuffer (.str "hi".toList) ['*'] emptyMem 0 =
      some (writeMem emptyMem 0 (.ptrVal (.strData "hi".toList))) ∧
    ((∀ s, JSValue.num ⟨1, 0⟩ ≠ .str s) ∧
      ExtractJSArgumentToBuffer (.num ⟨1, 0⟩) ['*'] emptyMem 0 = none) := by
  have h := cstring_marshalling_amended
  exact ⟨h.2.2.1 "hi".toList emptyMem 0,
    ⟨fun s hs => JSValue.noConfusion hs,
      h.2.2.2 (.num ⟨1, 0⟩) emptyMem 0 (fun s hs => JSValue.noConfusion hs)⟩⟩

/-- Claim C4: if the JS callback run for a block invocation (either
thread path) or a forwarded invocation throws, the error is logged,
the ObjC return slot is left zero/nil (nothing is written), control
returns normally to the ObjC caller, and on the cross-thread path the
invoker is still released via `isComplete`. -/
theorem callback_error_containment
    (jsFn : List JSValue → Except (List Char) JSValue) (args : List JSValue)
    (returnType : List Char) (retCode : Char) (hasRetSlot : Bool)
    (e : List Char) (herr : jsFn args = .error e) :
    (BlockInvokeDirect jsFn args returnType hasRetSlot).retSlot = none ∧
    (BlockInvokeDirect jsFn args returnType hasRetSlot).returnedNormally = true ∧
    (BlockInvokeDirect jsFn args returnType hasRetSlot).errorLogged = true ∧
    (BlockTSFNCallback jsFn args returnType hasRetSlot).retSlot = none ∧
    (BlockTSFNCallback jsFn args returnType hasRetSlot).returnedNormally = true ∧
    (BlockTSFNCallback jsFn args returnType hasRetSlot).errorLogged = true ∧
    (BlockTSFNCallback jsFn args returnType hasRetSlot).isComplete = true ∧
    (ForwardedJSCallback jsFn args retCode).retSlot = none ∧
    (ForwardedJSCallback jsFn args retCode).returnedNormally = true ∧
    (ForwardedJSCallback jsFn args retCode).errorLogged = true := by
  have h1 : BlockInvokeDirect jsFn args returnType hasRetSlot =
      { retSlot := none, returnedNormally := true, errorLogged := true } := by
    unfold BlockInvokeDirect
    rw [herr]
  have h2 : BlockTSFNCallback jsFn args returnType hasRetSlot =
      { retSlot := none, returnedNormally := true, errorLogged := true,
        isComplete := true } := by
    unfold BlockTSFNCallback
    rw [herr]
  have h3 : ForwardedJSCallback jsFn args retCode =
      { retSlot := none, returnedNormally := true, errorLogged := true } := by
    unfold ForwardedJSCallback
    rw [herr]
  rw [h1, h2, h3]
  exact ⟨rfl, rfl, rfl, rfl, rfl, rfl, rfl, rfl, rfl, rfl⟩

/-- Witness for error containment: a callback that always throws, invoked
with no arguments for an `int` return. -/
theorem callback_error_containment_witness :
    (fun (_ : List JSValue) => (Except.error "boom".toList : Except (List Char) JSValue)) [] =
      .error "boom".toList ∧
    (BlockInvokeDirect (fun _ => .error "boom".toList) [] "i".toList true).retSlot = none ∧
    (BlockTSFNCallback (fun _ => .error "boom".toList) [] "i".toList true).isComplete = true ∧
    (ForwardedJSCallback (fun _ => .error "boom".toList) [] 'i').retSlot = none := by
  have h := callback_error_containment (fun _ => .error "boom".toList) []
    "i".toList 'i' true "boom".toList rfl
  exact ⟨rfl, h.1, h.2.2.2.2.2.2.1, h.2.2.2.2.2.2.2.1⟩

/-- Claim C9: when the declared encoding lacks the extended `@?<…>` form,
the block signature falls back to `jsFn.length` parameters of unknown
type with a void return; every such parameter is given the
pointer-sized `ffi_type`; a `?` parameter's incoming raw word is
converted by the heuristic; and the heuristic classifies exactly as
the code does — a set high bit means object, zero and values below
4096 and values outside a malloc zone are numbers, and heap values
are objects exactly when the class probe passes. -/
theorem block_fallback_heuristic :
    (∀ (enc : List Char) (n : Nat), (ParseBlockSignature enc).valid = false →
      CreateBlockFromJSFunctionSignature enc n =
        { returnType := ['v'], paramTypes := List.replicate n ['?'],
          valid := true }) ∧
    (∀ (n : Nat) (p : List Char), p ∈ List.replicate n (['?'] : List Char) →
      blockParamFFIType p = .pointer) ∧
    (∀ (zone cls : Nat → Bool) (m : ByteMem) (off : Nat) (v : Int),
      readMem m off 8 = some (.intVal 8 v) →
      ConvertBlockArgToJS zone cls m off ['?'] =
        some (ConvertBlockArgHeuristic zone cls (v % (2 : Int) ^ 64).toNat)) ∧
    (∀ (zone cls : Nat → Bool) (val : Nat),
      (val = 0 → ConvertBlockArgHeuristic zone cls val = .num ⟨0, 0⟩) ∧
      (val ≠ 0 → val.testBit 63 = true →
        ConvertBlockArgHeuristic zone cls val = .wrapped (some val)) ∧
      (val ≠ 0 → val.testBit 63 = false → val < 4096 →
        ConvertBlockArgHeuristic zone cls val = .num (doubleOfInt (val : Int))) ∧
      (val ≠ 0 → val.testBit 63 = false → 4096 ≤ val → zone val = false →
        ConvertBlockArgHeuristic zone cls val = .num (doubleOfInt (val : Int))) ∧
      (val ≠ 0 → val.testBit 63 = false → 4096 ≤ val → zone val = true →
        cls val = true →
        ConvertBlockArgHeuristic zone cls val = .wrapped (some val)) ∧
      (val ≠ 0 → val.testBit 63 = false → 4096 ≤ val → zone val = true →
        cls val = false →
        ConvertBlockArgHeuristic zone cls val = .num (doubleOfInt (val : Int)))) := by
  refine ⟨?_, ?_, ?_, ?_⟩
  · intro enc n h
    simp [CreateBlockFromJSFunctionSignature, h]
  · intro n p hp
    rw [List.eq_of_mem_replicate hp]
    rfl
  · intro zone cls m off v hread
    simp only [ConvertBlockArgToJS, show SimplifyTypeEncoding ['?'] = ['?'] from rfl]
    simp [headCharD, hread]
  · intro zone cls val
    have hbig : 4096 ≤ val → ¬(val < 4096) := fun h => by omega
    refine ⟨?_, ?_, ?_, ?_, ?_, ?_⟩
    · intro h0
      simp [ConvertBlockArgHeuristic, h0]
    · intro h0 hbit
      simp [ConvertBlockArgHeuristic, LooksLikeObjCObject, h0, hbit]
    · intro h0 hbit hlt
      simp [ConvertBlockArgHeuristic, LooksLikeObjCObject, h0, hbit, hlt]
    · intro h0 hbit hge hz
      simp [ConvertBlockArgHeuristic, LooksLikeObjCObject, h0, hbit, hbig hge, hz]
    · intro h0 hbit hge hz hc
      simp [ConvertBlockArgHeuristic, LooksLikeObjCObject, h0, hbit, hbig hge, hz, hc]
    · intro h0 hbit hge hz hc
      simp [ConvertBlockArgHeuristic, LooksLikeObjCObject, h0, hbit, hbig hge, hz, hc]

/-- Witness for the fallback/heuristic theorem: the bare `@?` encoding
(no extended signature) with a 2-argument JS function, a raw word 5000
stored at offset 0, always-in-zone and never-valid-class probes. -/
theorem block_fallback_heuristic_witness :
    ((ParseBlockSignature "@?".toList).valid = false ∧
      CreateBlockFromJSFunctionSignature "@?".toList 2 =
        { returnType := ['v'], paramTypes := List.replicate 2 ['?'],
          valid := true }) ∧
    ((['?'] : List Char) ∈ List.replicate 2 (['?'] : List Char) ∧
      blockParamFFIType ['?'] = .pointer) ∧
    (readMem (writeMem emptyMem 0 (.intVal 8 5000)) 0 8 =
        some (.intVal 8 5000) ∧
      ConvertBlockArgToJS (fun _ => true) (fun _ => false)
          (writeMem emptyMem 0 (.intVal 8 5000)) 0 ['?'] =
        some (ConvertBlockArgHeuristic (fun _ => true) (fun _ => false)
          ((5000 : Int) % (2 : Int) ^ 64).toNat)) ∧
    ((5000 : Nat) ≠ 0 ∧ (5000 : Nat).testBit 63 = false ∧ (4096 : Nat) ≤ 5000 ∧
      ConvertBlockArgHeuristic (fun _ => true) (fun _ => false) 5000 =
        .num (doubleOfInt (5000 : Int))) := by
  have h := block_fallback_heuristic
  refine ⟨⟨by decide, h.1 "@?".toList 2 (by decide)⟩,
    ⟨by decide, h.2.1 2 ['?'] (by decide)⟩,
    ⟨by decide, h.2.2.1 (fun _ => true) (fun _ => false)
      (writeMem emptyMem 0 (.intVal 8 5000)) 0 5000 (by decide)⟩,
    ⟨by decide, by decide, by decide,
      (h.2.2.2 (fun _ => true) (fun _ => false) 5000).2.2.2.2.2
        (by decide) (by decide) (by decide) rfl rfl⟩⟩
